import Mathlib

/- Verification development for the azure-upload repository.
   Shallow embedding of scripts/api-validator.py (the document validator),
   scripts/import-apis.py (the import orchestrator) and apiazure.py (the
   version-set ensurer), with theorems settling the claims about them. -/

set_option maxHeartbeats 1000000

namespace AzureUpload

/-- Untyped document values, the in-memory form of a parsed YAML/JSON spec
(Python dict/list/str/int/bool/None).  Mapping keys are strings, matching
JSON semantics; numbers are modelled as integers. -/
inductive JValue where
| null : JValue
| bool (b : Bool) : JValue
| num (n : Int) : JValue
| str (s : String) : JValue
| arr (xs : List JValue) : JValue
| obj (kvs : List (String × JValue)) : JValue

mutual

/-- Python `==` on document values (structural equality). -/
def JValue.beq : JValue → JValue → Bool
| .null, .null => true
| .bool a, .bool b => a == b
| .num a, .num b => a == b
| .str a, .str b => a == b
| .arr a, .arr b => JValue.beqList a b
| .obj a, .obj b => JValue.beqKVs a b
| _, _ => false

def JValue.beqList : List JValue → List JValue → Bool
| [], [] => true
| a :: as, b :: bs => JValue.beq a b && JValue.beqList as bs
| _, _ => false

def JValue.beqKVs : List (String × JValue) → List (String × JValue) → Bool
| [], [] => true
| a :: as, b :: bs => (a.1 == b.1 && JValue.beq a.2 b.2) && JValue.beqKVs as bs
| _, _ => false

end

/-- Python truthiness on document values (`bool(v)`). -/
def truthy : JValue → Bool
| .null => false
| .bool b => b
| .num n => n != 0
| .str s => !s.isEmpty
| .arr xs => !xs.isEmpty
| .obj kvs => !kvs.isEmpty

/-- Exceptions that the translated Python code can raise. -/
inductive PyErr where
| attributeError : PyErr
| typeError : PyErr
| keyError : PyErr
deriving DecidableEq

/-- First binding of a key in a mapping (Python dict lookup; keys of a dict
built by the YAML parser are unique, so first-match is exact). -/
def kvsFind (kvs : List (String × JValue)) (k : String) : Option JValue :=
match kvs.find? (fun p => p.1 == k) with
| some p => some p.2
| none => none

/-- Python `d.get(k, dflt)`: raises AttributeError on non-mappings. -/
def pyGetD (v : JValue) (k : String) (dflt : JValue) : Except PyErr JValue :=
match v with
| .obj kvs => .ok ((kvsFind kvs k).getD dflt)
| _ => .error .attributeError

/-- Python `d.get(k)` (default `None`). -/
def pyGet (v : JValue) (k : String) : Except PyErr JValue :=
pyGetD v k .null

/-- Whether `s` contains `pat` as a substring (Python `pat in s` on strings). -/
def strHasSub (s pat : String) : Bool :=
decide ((s.splitOn pat).length > 1) || pat.isEmpty

/-- Python `k in v`: key membership for mappings, element membership for
sequences, substring test for strings, TypeError otherwise. -/
def pyContains (v : JValue) (k : String) : Except PyErr Bool :=
match v with
| .obj kvs => .ok (kvs.any (fun p => p.1 == k))
| .arr xs => .ok (xs.any (fun x => JValue.beq x (.str k)))
| .str s => .ok (strHasSub s k)
| _ => .error .typeError

/-- Python `v[k]` with a string key. -/
def pyIndex (v : JValue) (k : String) : Except PyErr JValue :=
match v with
| .obj kvs =>
  match kvsFind kvs k with
  | some x => .ok x
  | none => .error .keyError
| _ => .error .typeError

/-- Python `v.items()`. -/
def pyItems (v : JValue) : Except PyErr (List (String × JValue)) :=
match v with
| .obj kvs => .ok kvs
| _ => .error .attributeError

/-- Python `v.keys()`. -/
def pyKeys (v : JValue) : Except PyErr (List String) :=
match v with
| .obj kvs => .ok (kvs.map (fun p => p.1))
| _ => .error .attributeError

/-- Python iteration `for x in v`: elements of a sequence, keys of a
mapping, characters of a string, TypeError otherwise. -/
def pyIter (v : JValue) : Except PyErr (List JValue) :=
match v with
| .arr xs => .ok xs
| .obj kvs => .ok (kvs.map (fun p => JValue.str p.1))
| .str s => .ok (s.data.map (fun c => JValue.str (String.mk [c])))
| _ => .error .typeError

/-- Python `len(v)`. -/
def pyLen (v : JValue) : Except PyErr Nat :=
match v with
| .arr xs => .ok xs.length
| .obj kvs => .ok kvs.length
| .str s => .ok s.length
| _ => .error .typeError

/-- `s.startswith(p)` on strings, computed on the character lists. -/
def strStartsWith (s p : String) : Bool :=
p.data.isPrefixOf s.data

/-- Python `v.startswith(p)` (AttributeError on non-strings). -/
def pyStartsWith (v : JValue) (p : String) : Except PyErr Bool :=
match v with
| .str s => .ok (strStartsWith s p)
| _ => .error .attributeError

/-- Python `str(v)` as used inside the f-string messages.  Scalar cases are
faithful; the rendering of structured values (which Python prints as their
repr) is abbreviated, since no checked message embeds a structured value. -/
def pyStr : JValue → String
| .null => "None"
| .bool true => "True"
| .bool false => "False"
| .num n => toString n
| .str s => s
| .arr _ => "<list>"
| .obj _ => "<dict>"

/-- A single-quote character as a string (used inside error messages). -/
def sq : String := String.mk [Char.ofNat 39]

/-- A left brace character as a string (used inside error messages). -/
def lbr : String := String.mk [Char.ofNat 123]

/-- A right brace character as a string (used inside error messages). -/
def rbr : String := String.mk [Char.ofNat 125]

namespace ApiValidator

/-- The HTTP methods iterated by every per-operation check
(`['get', 'post', 'put', 'delete', 'patch']` in the source). -/
def httpMethods : List String := ["get", "post", "put", "delete", "patch"]

/-- Location tag `f"{method.upper()} {path}"`. -/
def locString (method path : String) : String :=
method.toUpper ++ " " ++ path

/-- Message for an operation without an operationId. -/
def missingOpIdMsg (method path : String) : String :=
"Missing operationId in " ++ locString method path

/-- Message for a duplicated operationId, naming both locations. -/
def dupOpIdMsg (opId : JValue) (method path firstLoc : String) : String :=
"Duplicate operationId " ++ sq ++ pyStr opId ++ sq ++ " found in " ++
  locString method path ++ " and " ++ firstLoc

/-- Inner loop of `check_operation_ids` over the five methods of one path
item; `ops` is the `operation_ids` dict as an insertion-ordered association
list (Python dict keys are compared with `==`; unhashable keys, which would
raise in Python, do not occur in the documents quantified over here). -/
def opIdsMethods (path : String) (pathItem : JValue) :
    List String → List (JValue × String) → List String →
    Except PyErr (List (JValue × String) × List String)
| [], ops, errs => .ok (ops, errs)
| m :: ms, ops, errs => do
  let present ← pyContains pathItem m
  if present then do
    let operation ← pyIndex pathItem m
    let hasId ← pyContains operation "operationId"
    if hasId then do
      let opId ← pyIndex operation "operationId"
      match ops.find? (fun p => JValue.beq p.1 opId) with
      | some p => opIdsMethods path pathItem ms ops (errs ++ [dupOpIdMsg opId m path p.2])
      | none => opIdsMethods path pathItem ms (ops ++ [(opId, locString m path)]) errs
    else
      opIdsMethods path pathItem ms ops (errs ++ [missingOpIdMsg m path])
  else
    opIdsMethods path pathItem ms ops errs

/-- Outer loop of `check_operation_ids` over `self.spec['paths'].items()`. -/
def opIdsPaths :
    List (String × JValue) → List (JValue × String) → List String →
    Except PyErr (List (JValue × String) × List String)
| [], ops, errs => .ok (ops, errs)
| (p, pi) :: rest, ops, errs => do
  let r ← opIdsMethods p pi httpMethods ops errs
  opIdsPaths rest r.1 r.2

/-- `ApiValidator.check_operation_ids` (api-validator.py lines 51-72). -/
def check_operation_ids (spec : JValue) : Except PyErr (List String) := do
  let paths ← pyGet spec "paths"
  if !truthy paths then
    .ok ["No paths defined in specification"]
  else do
    let items ← pyItems paths
    let r ← opIdsPaths items [] []
    .ok r.2

/-- Left-to-right scan of `re.findall(r'{([^}]+)}', path)`: outside a
brace group (`acc = none`), an opening brace starts a group; inside a
group (`acc = some content`), a closing brace emits the group when its
content is non-empty (the regex needs at least one non-brace character)
and any other character extends the content. -/
def scanGo : List Char → Option (List Char) → List String
| [], _ => []
| c :: rest, none =>
  if c = Char.ofNat 123 then scanGo rest (some []) else scanGo rest none
| c :: rest, some acc =>
  if c = Char.ofNat 125 then
    if acc.isEmpty then scanGo rest none
    else String.mk acc :: scanGo rest none
  else scanGo rest (some (acc ++ [c]))

/-- `re.findall(r'{([^}]+)}', path)`: the non-overlapping brace-delimited
tokens with at least one non-brace character. -/
def scanParams (cs : List Char) : List String :=
scanGo cs none

/-- Message for a declared path parameter without `required = true`. -/
def reqMsg (name : JValue) (method path : String) : String :=
"Path parameter " ++ sq ++ pyStr name ++ sq ++ " in " ++ locString method path ++
  " must have required=true"

/-- Message for a placeholder with no declared path parameter. -/
def notDefinedMsg (name : String) (path method : String) : String :=
"Path parameter " ++ sq ++ lbr ++ name ++ rbr ++ sq ++ " in " ++ path ++
  " is not defined in " ++ method.toUpper ++ " operation"

/-- Message for a declared path parameter absent from the template. -/
def notInTemplateMsg (name : JValue) (method path : String) : String :=
"Defined path parameter " ++ sq ++ pyStr name ++ sq ++ " in " ++
  locString method path ++ " not found in path template"

/-- Loop over the operation-level parameter list in
`check_path_parameters`: collects names of `in: path` parameters and
errors for those without a truthy `required`. -/
def opParamsLoop (method path : String) :
    List JValue → List JValue → List String →
    Except PyErr (List JValue × List String)
| [], names, errs => .ok (names, errs)
| param :: rest, names, errs => do
  let inv ← pyGet param "in"
  if JValue.beq inv (.str "path") then do
    let nm ← pyGet param "name"
    let req ← pyGet param "required"
    if truthy req then
      opParamsLoop method path rest (names ++ [nm]) errs
    else
      opParamsLoop method path rest (names ++ [nm]) (errs ++ [reqMsg nm method path])
  else
    opParamsLoop method path rest names errs

/-- Loop over the path-item-level parameter list in
`check_path_parameters`: adds names of `in: path` parameters not already
collected.  No `required` check happens at this level in the source. -/
def itemParamsLoop : List JValue → List JValue → Except PyErr (List JValue)
| [], names => .ok names
| param :: rest, names => do
  let inv ← pyGet param "in"
  let nm ← pyGet param "name"
  if JValue.beq inv (.str "path") && !(names.any (fun x => JValue.beq x nm)) then
    itemParamsLoop rest (names ++ [nm])
  else
    itemParamsLoop rest names

/-- Body of `check_path_parameters` for one (path, method) pair. -/
def ppMethodBody (path : String) (pathItem : JValue) (errs : List String)
    (m : String) : Except PyErr (List String) := do
  let present ← pyContains pathItem m
  if !present then .ok errs else do
  let operation ← pyIndex pathItem m
  let hasP ← pyContains operation "parameters"
  let r1 ←
    if hasP then do
      let pv ← pyGetD operation "parameters" (.arr [])
      let params ← pyIter pv
      opParamsLoop m path params [] errs
    else .ok ([], errs)
  let hasIP ← pyContains pathItem "parameters"
  let names2 ←
    if hasIP then do
      let pv ← pyGetD pathItem "parameters" (.arr [])
      let params ← pyIter pv
      itemParamsLoop params r1.1
    else .ok r1.1
  let pathParams := scanParams path.data
  let errs2 := r1.2 ++
    (pathParams.filter (fun n => !(names2.any (fun x => JValue.beq x (.str n))))).map
      (fun n => notDefinedMsg n path m)
  let errs3 := errs2 ++
    (names2.filter (fun x => !(pathParams.any (fun n => JValue.beq x (.str n))))).map
      (fun x => notInTemplateMsg x m path)
  .ok errs3

/-- Method loop of `check_path_parameters` for one path item. -/
def ppMethodsLoop (path : String) (pathItem : JValue) :
    List String → List String → Except PyErr (List String)
| [], errs => .ok errs
| m :: ms, errs => do
  let errs2 ← ppMethodBody path pathItem errs m
  ppMethodsLoop path pathItem ms errs2

/-- Path loop of `check_path_parameters`. -/
def ppPathsLoop : List (String × JValue) → List String → Except PyErr (List String)
| [], errs => .ok errs
| (p, pi) :: rest, errs => do
  let errs2 ← ppMethodsLoop p pi httpMethods errs
  ppPathsLoop rest errs2

/-- `ApiValidator.check_path_parameters` (api-validator.py lines 74-114). -/
def check_path_parameters (spec : JValue) : Except PyErr (List String) := do
  let paths ← pyGet spec "paths"
  if !truthy paths then .ok [] else do
  let items ← pyItems paths
  ppPathsLoop items []

/-- Message for a security scheme without a type. -/
def missingTypeMsg (name : String) : String :=
"Security scheme " ++ sq ++ name ++ sq ++ " is missing a type"

/-- Warning for multiple OAuth2 flows. -/
def multiFlowsMsg (name : String) : String :=
"Multiple OAuth2 flows defined in " ++ sq ++ name ++ sq ++ " may cause issues in APIM"

/-- Warning for an OAuth2 flow with more than 10 scopes. -/
def largeScopesMsg (flowName : String) : String :=
"Large number of scopes in OAuth2 flow " ++ sq ++ flowName ++ sq ++
  " may cause issues in APIM"

/-- Scope loop of `check_security_definitions` over
`scheme.get('flows', {}).items()`. -/
def scopesLoop : List (String × JValue) → List String → Except PyErr (List String)
| [], warns => .ok warns
| (flowName, flow) :: rest, warns => do
  let sc ← pyGet flow "scopes"
  if truthy sc then do
    let sc2 ← pyIndex flow "scopes"
    let n ← pyLen sc2
    scopesLoop rest (if n > 10 then warns ++ [largeScopesMsg flowName] else warns)
  else
    scopesLoop rest warns

/-- Scheme loop of `check_security_definitions`. -/
def secLoop : List (String × JValue) → List String → List String →
    Except PyErr (List String × List String)
| [], errs, warns => .ok (errs, warns)
| (name, scheme) :: rest, errs, warns => do
  let ty ← pyGet scheme "type"
  let errs1 := if truthy ty then errs else errs ++ [missingTypeMsg name]
  if JValue.beq ty (.str "oauth2") then do
    let flows ← pyGet scheme "flows"
    let warns1 ←
      if truthy flows then do
        let fl ← pyIndex scheme "flows"
        let n ← pyLen fl
        .ok (if n > 1 then warns ++ [multiFlowsMsg name] else warns)
      else .ok warns
    let flv ← pyGetD scheme "flows" (.obj [])
    let fitems ← pyItems flv
    let warns2 ← scopesLoop fitems warns1
    secLoop rest errs1 warns2
  else
    secLoop rest errs1 warns

/-- `ApiValidator.check_security_definitions` (api-validator.py lines
116-135). -/
def check_security_definitions (spec : JValue) :
    Except PyErr (List String × List String) := do
  let comps ← pyGet spec "components"
  if !truthy comps then .ok ([], []) else do
  let comps2 ← pyIndex spec "components"
  let ss ← pyGetD comps2 "securitySchemes" .null
  if !truthy ss then .ok ([], []) else do
  let ss2 ← pyIndex comps2 "securitySchemes"
  let items ← pyItems ss2
  secLoop items [] []

/-- The fixed content-type allow-list of `check_content_types`. -/
def supported_types : List String :=
["application/json", "application/xml", "text/plain", "multipart/form-data",
 "application/x-www-form-urlencoded"]

/-- Warning for an unsupported request-body content type. -/
def reqCtWarnMsg (ct method path : String) : String :=
"Content type " ++ sq ++ ct ++ sq ++ " in " ++ locString method path ++
  " request body may not be well supported in APIM"

/-- Warning for an unsupported response content type. -/
def respCtWarnMsg (ct method path : String) : String :=
"Content type " ++ sq ++ ct ++ sq ++ " in " ++ locString method path ++
  " response may not be well supported in APIM"

/-- Response loop of `check_content_types` for one operation. -/
def ctRespLoop (method path : String) :
    List (String × JValue) → List String → Except PyErr (List String)
| [], warns => .ok warns
| (_, response) :: rest, warns => do
  let hasC ← pyContains response "content"
  if hasC then do
    let c ← pyIndex response "content"
    let ks ← pyKeys c
    ctRespLoop method path rest
      (warns ++ (ks.filter (fun ct => !supported_types.contains ct)).map
        (fun ct => respCtWarnMsg ct method path))
  else
    ctRespLoop method path rest warns

/-- Body of `check_content_types` for one (path, method) pair. -/
def ctMethodBody (path : String) (pathItem : JValue) (warns : List String)
    (m : String) : Except PyErr (List String) := do
  let present ← pyContains pathItem m
  if !present then .ok warns else do
  let operation ← pyIndex pathItem m
  let hasRB ← pyContains operation "requestBody"
  let warns1 ←
    if hasRB then do
      let rb ← pyIndex operation "requestBody"
      let hasC ← pyContains rb "content"
      if hasC then do
        let c ← pyIndex rb "content"
        let ks ← pyKeys c
        .ok (warns ++ (ks.filter (fun ct => !supported_types.contains ct)).map
          (fun ct => reqCtWarnMsg ct m path))
      else .ok warns
    else .ok warns
  let hasR ← pyContains operation "responses"
  if hasR then do
    let responses ← pyIndex operation "responses"
    let items ← pyItems responses
    ctRespLoop m path items warns1
  else .ok warns1

/-- Method loop of `check_content_types` for one path item. -/
def ctMethodsLoop (path : String) (pathItem : JValue) :
    List String → List String → Except PyErr (List String)
| [], warns => .ok warns
| m :: ms, warns => do
  let warns2 ← ctMethodBody path pathItem warns m
  ctMethodsLoop path pathItem ms warns2

/-- Path loop of `check_content_types`. -/
def ctPathsLoop : List (String × JValue) → List String → Except PyErr (List String)
| [], warns => .ok warns
| (p, pi) :: rest, warns => do
  let warns2 ← ctMethodsLoop p pi httpMethods warns
  ctPathsLoop rest warns2

/-- `ApiValidator.check_content_types` (api-validator.py lines 137-169);
appends warnings only. -/
def check_content_types (spec : JValue) : Except PyErr (List String) := do
  let paths ← pyGet spec "paths"
  if !truthy paths then .ok [] else do
  let items ← pyItems paths
  ctPathsLoop items []

/-- `path.endswith('/')`. -/
def strEndsWithSlash (s : String) : Bool :=
s.data.getLast? == some '/'

/-- Message for a path key with a trailing slash. -/
def trailingSlashMsg (p : String) : String :=
"Path " ++ sq ++ p ++ sq ++ " ends with a trailing slash, which may cause issues in APIM"

/-- `ApiValidator.check_path_trailing_slashes` (api-validator.py lines
171-178). -/
def check_path_trailing_slashes (spec : JValue) : Except PyErr (List String) := do
  let paths ← pyGet spec "paths"
  if !truthy paths then .ok [] else do
  let ks ← pyKeys paths
  .ok ((ks.filter (fun p => p ≠ "/" && strEndsWithSlash p)).map trailingSlashMsg)

/-- `ApiValidator.check_servers` (api-validator.py lines 180-188).  The
Python conditions short-circuit, but the later lookups can only raise when
the first lookup on the same object already raised, so hoisting them
preserves the semantics. -/
def check_servers (spec : JValue) : Except PyErr (List String) := do
  let ov ← pyGetD spec "openapi" (.str "")
  let isV3 ← pyStartsWith ov "3."
  let sv ← pyGet spec "servers"
  let errs1 := if isV3 && !truthy sv
    then ["No servers defined in OpenAPI 3.0 specification"] else []
  let sw ← pyGetD spec "swagger" (.str "")
  let isV2 ← pyStartsWith sw "2."
  let hv ← pyGet spec "host"
  let bv ← pyGet spec "basePath"
  let errs2 := if isV2 && !(truthy hv || truthy bv)
    then ["No host or basePath defined in Swagger 2.0 specification"] else []
  .ok (errs1 ++ errs2)

/-- `status.startswith('2') or status.startswith('3')`. -/
def statusStarts2or3 (s : String) : Bool :=
strStartsWith s "2" || strStartsWith s "3"

/-- Message for an operation with no responses key. -/
def noResponsesMsg (method path : String) : String :=
"No responses defined for " ++ locString method path

/-- Message for an empty 2xx/3xx response definition. -/
def emptyRespMsg (method path status : String) : String :=
"Empty success response definition for " ++ locString method path ++
  " with status " ++ status

/-- Message for an operation without any 2xx/3xx response. -/
def noSuccessMsg (method path : String) : String :=
"No success response (2xx, 3xx) defined for " ++ locString method path

/-- Status loop of `check_response_definitions` for one operation. -/
def respStatusLoop (responses : JValue) (method path : String) :
    List String → List String → Bool → Except PyErr (List String × Bool)
| [], errs, hasSuccess => .ok (errs, hasSuccess)
| status :: rest, errs, hasSuccess =>
  if statusStarts2or3 status then do
    let response ← pyIndex responses status
    let bad := !truthy response ||
      (match response with
       | .obj kvs => !truthy ((kvsFind kvs "description").getD .null)
       | _ => false)
    respStatusLoop responses method path rest
      (if bad then errs ++ [emptyRespMsg method path status] else errs) true
  else
    respStatusLoop responses method path rest errs hasSuccess

/-- Body of `check_response_definitions` for one (path, method) pair. -/
def respMethodBody (path : String) (pathItem : JValue) (errs : List String)
    (m : String) : Except PyErr (List String) := do
  let present ← pyContains pathItem m
  if !present then .ok errs else do
  let operation ← pyIndex pathItem m
  let hasR ← pyContains operation "responses"
  if !hasR then .ok (errs ++ [noResponsesMsg m path]) else do
  let responses ← pyIndex operation "responses"
  let ks ← pyKeys responses
  let r ← respStatusLoop responses m path ks errs false
  if !r.2 then .ok (r.1 ++ [noSuccessMsg m path]) else .ok r.1

/-- Method loop of `check_response_definitions` for one path item. -/
def respMethodsLoop (path : String) (pathItem : JValue) :
    List String → List String → Except PyErr (List String)
| [], errs => .ok errs
| m :: ms, errs => do
  let errs2 ← respMethodBody path pathItem errs m
  respMethodsLoop path pathItem ms errs2

/-- Path loop of `check_response_definitions`. -/
def respPathsLoop : List (String × JValue) → List String → Except PyErr (List String)
| [], errs => .ok errs
| (p, pi) :: rest, errs => do
  let errs2 ← respMethodsLoop p pi httpMethods errs
  respPathsLoop rest errs2

/-- `ApiValidator.check_response_definitions` (api-validator.py lines
190-217). -/
def check_response_definitions (spec : JValue) : Except PyErr (List String) := do
  let paths ← pyGet spec "paths"
  if !truthy paths then .ok [] else do
  let items ← pyItems paths
  respPathsLoop items []

/-- Message for a reference object with siblings. -/
def refSibMsg (path : String) : String :=
"Object at " ++ path ++ " has $ref with siblings, which APIM doesn" ++ sq ++ "t support"

mutual

/-- `check_object` inside `ApiValidator.check_ref_siblings` (api-validator.py
lines 221-230): recursive walk over the whole document tree. -/
def check_object : JValue → String → List String
| .obj kvs, path =>
  (if kvs.any (fun p => p.1 == "$ref") && decide (kvs.length > 1)
   then [refSibMsg path] else []) ++ refWalkKVs kvs path
| .arr xs, path => refWalkArr xs path 0
| _, _ => []

/-- Walk over a mapping's values. -/
def refWalkKVs : List (String × JValue) → String → List String
| [], _ => []
| (k, v) :: rest, path => check_object v (path ++ "." ++ k) ++ refWalkKVs rest path

/-- Walk over a sequence's elements (Python `enumerate`). -/
def refWalkArr : List JValue → String → Nat → List String
| [], _, _ => []
| x :: rest, path, i =>
  check_object x (path ++ "[" ++ toString i ++ "]") ++ refWalkArr rest path (i + 1)

end

/-- `ApiValidator.check_ref_siblings` (api-validator.py lines 219-232);
never raises. -/
def check_ref_siblings (spec : JValue) : List String :=
check_object spec "root"

/-- The validator's mutable state: the parsed spec (None when loading
failed) and the collected errors and warnings. -/
structure VState where
  spec : Option JValue
  errors : List String
  warnings : List String

/-- The load error recorded by `ApiValidator.__init__`. -/
def loadErrorMsg (e : String) : String :=
"Failed to load specification: " ++ e

/-- `ApiValidator.__init__` (api-validator.py lines 17-32): the parsing of
the raw text is an external collaborator, so the constructor takes the
parse outcome; on failure it records a single load error and leaves the
spec as None. -/
def mkValidator : Except String JValue → VState
| .ok v => ⟨some v, [], []⟩
| .error e => ⟨none, [loadErrorMsg e], []⟩

/-- The eight checks run by `validate`, in source order, with the errors
and warnings they append. -/
def runChecks (spec : JValue) : Except PyErr (List String × List String) := do
  let e1 ← check_operation_ids spec
  let e2 ← check_path_parameters spec
  let r3 ← check_security_definitions spec
  let w4 ← check_content_types spec
  let e5 ← check_path_trailing_slashes spec
  let e6 ← check_servers spec
  let e7 ← check_response_definitions spec
  let e8 := check_ref_siblings spec
  .ok (e1 ++ e2 ++ r3.1 ++ e5 ++ e6 ++ e7 ++ e8, r3.2 ++ w4)

/-- `ApiValidator.validate` (api-validator.py lines 34-49): returns early
(False) when the spec is falsy, otherwise runs all checks and returns
whether no error was collected.  An exception raised by a check propagates
out of `validate`. -/
def validate (st : VState) : Except PyErr (VState × Bool) :=
match st.spec with
| none => .ok (st, false)
| some v =>
  if truthy v then
    match runChecks v with
    | .error e => .error e
    | .ok r =>
      let st2 : VState := ⟨st.spec, st.errors ++ r.1, st.warnings ++ r.2⟩
      .ok (st2, st2.errors.length == 0)
  else .ok (st, false)

end ApiValidator

/-- `Except` success test (used to state that a check does not raise). -/
def pyOk {α : Type} : Except PyErr α → Bool
| .ok _ => true
| .error _ => false

mutual

/-- All nodes of a document tree: the node itself, then the nodes of every
value of a mapping and every element of a sequence. -/
def subnodes : JValue → List JValue
| .obj kvs => .obj kvs :: subnodesKVs kvs
| .arr xs => .arr xs :: subnodesList xs
| v => [v]

def subnodesKVs : List (String × JValue) → List JValue
| [] => []
| (_, v) :: rest => subnodes v ++ subnodesKVs rest

def subnodesList : List JValue → List JValue
| [] => []
| v :: rest => subnodes v ++ subnodesList rest

end

/-- A mapping that has a `$ref` key next to at least one other key; a
mapping whose only key is `$ref` is not one. -/
def isRefSibling : JValue → Bool
| .obj kvs => kvs.any (fun p => p.1 == "$ref") && decide (kvs.length > 1)
| _ => false

namespace ApiValidator

/-- Builder for well-shaped documents: an optional key entry. -/
def optField (k : String) : Option JValue → List (String × JValue)
| none => []
| some v => [(k, v)]

/-- Raw key-value content of a mapping node. -/
abbrev KVs := List (String × JValue)

/-- Well-shaped response object: optional description, optional content
mapping, as in the data model. -/
structure BResp where
  descr : Option JValue
  content : Option KVs

/-- Build a response object. -/
def buildResp (r : BResp) : JValue :=
.obj (optField "description" r.descr ++ optField "content" (r.content.map .obj))

/-- Well-shaped request body: optional content mapping. -/
structure BReq where
  content : Option KVs

/-- Build a request body object. -/
def buildReq (r : BReq) : JValue :=
.obj (optField "content" (r.content.map .obj))

/-- Well-shaped operation object: optional operationId, parameter list,
request body and response mapping. -/
structure BOper where
  opId : Option String
  parameters : Option (List KVs)
  requestBody : Option BReq
  responses : Option (List (String × BResp))

/-- Build an operation object. -/
def buildOper (o : BOper) : JValue :=
.obj (optField "operationId" (o.opId.map .str) ++
  optField "parameters" (o.parameters.map (fun ps => .arr (ps.map .obj))) ++
  optField "requestBody" (o.requestBody.map buildReq) ++
  optField "responses" (o.responses.map (fun rs =>
    .obj (rs.map (fun q => (q.1, buildResp q.2))))))

/-- The five HTTP methods recognized by the validator. -/
inductive Method where
| get : Method
| post : Method
| put : Method
| delete : Method
| patch : Method

/-- The method's key in a path item. -/
def Method.toStr : Method → String
| .get => "get"
| .post => "post"
| .put => "put"
| .delete => "delete"
| .patch => "patch"

/-- Well-shaped path item: operation objects keyed by methods, plus an
optional shared parameter list. -/
structure BPathItem where
  ops : List (Method × BOper)
  parameters : Option (List KVs)

/-- Build a path item object. -/
def buildPathItem (pi : BPathItem) : JValue :=
.obj (pi.ops.map (fun q => (q.1.toStr, buildOper q.2)) ++
  optField "parameters" (pi.parameters.map (fun ps => .arr (ps.map .obj))))

/-- Well-shaped OAuth2 flow: optional scopes mapping. -/
structure BFlow where
  scopes : Option KVs

/-- Build a flow object. -/
def buildFlow (f : BFlow) : JValue :=
.obj (optField "scopes" (f.scopes.map .obj))

/-- Well-shaped security scheme: optional type value and flows mapping. -/
structure BScheme where
  type : Option JValue
  flows : Option (List (String × BFlow))

/-- Build a security scheme object. -/
def buildScheme (s : BScheme) : JValue :=
.obj (optField "type" s.type ++
  optField "flows" (s.flows.map (fun fs => .obj (fs.map (fun q => (q.1, buildFlow q.2))))))

/-- Well-shaped components object: optional securitySchemes mapping. -/
structure BComponents where
  securitySchemes : Option (List (String × BScheme))

/-- Build a components object. -/
def buildComponents (c : BComponents) : JValue :=
.obj (optField "securitySchemes" (c.securitySchemes.map (fun ss =>
  .obj (ss.map (fun q => (q.1, buildScheme q.2))))))

/-- A document of the shape documented in the data model: a top-level
mapping with string version tags, arbitrary servers/host/basePath/info
values, path items mapping methods to operation objects, and components. -/
structure BSpec where
  openapi : Option String
  swagger : Option String
  info : Option JValue
  servers : Option JValue
  host : Option JValue
  basePath : Option JValue
  paths : Option (List (String × BPathItem))
  components : Option BComponents

/-- Build a whole well-shaped document. -/
def buildSpec (d : BSpec) : JValue :=
.obj (optField "openapi" (d.openapi.map .str) ++
  optField "swagger" (d.swagger.map .str) ++
  optField "info" d.info ++
  optField "servers" d.servers ++
  optField "host" d.host ++
  optField "basePath" d.basePath ++
  optField "paths" (d.paths.map (fun ps =>
    .obj (ps.map (fun q => (q.1, buildPathItem q.2))))) ++
  optField "components" (d.components.map buildComponents))

/-- The servers/host errors `check_servers` is specified to produce: the
missing-servers error fires exactly when the `servers` value is absent or
falsy (and similarly for the Swagger host/basePath error). -/
def serversExpected (d : BSpec) : List String :=
(if strStartsWith (d.openapi.getD "") "3." && !truthy (d.servers.getD .null)
 then ["No servers defined in OpenAPI 3.0 specification"] else []) ++
(if strStartsWith (d.swagger.getD "") "2." &&
    !(truthy (d.host.getD .null) || truthy (d.basePath.getD .null))
 then ["No host or basePath defined in Swagger 2.0 specification"] else [])

/-- Parameter object for the path-parameter check: optional name, `in`
location and `required` value. -/
structure BPParam where
  name : Option JValue
  inLoc : Option JValue
  required : Option JValue

/-- Build a parameter object. -/
def buildParam (b : BPParam) : JValue :=
.obj (optField "name" b.name ++ optField "in" b.inLoc ++ optField "required" b.required)

/-- The value Python's `param.get(k)` sees for an optional field. -/
def pval : Option JValue → JValue
| none => .null
| some v => v

/-- Whether a parameter is declared `in: path`. -/
def isPathP (b : BPParam) : Bool :=
JValue.beq (pval b.inLoc) (.str "path")

/-- A document with a single path, a single `get` operation carrying the
parameter list `ops`, and a path-item-level shared parameter list `ips`. -/
def buildPPDoc (p : String) (ops ips : List BPParam) : JValue :=
.obj [("paths", .obj [(p, .obj
  [("get", .obj [("parameters", .arr (ops.map buildParam))]),
   ("parameters", .arr (ips.map buildParam))])])]

/-- Names gathered from the operation-level parameter list. -/
def ppOpNames (ops : List BPParam) : List JValue :=
(ops.filter isPathP).map (fun b => pval b.name)

/-- The required=true errors: they arise from the operation-level
parameter list only. -/
def ppReqErrs (m p : String) (ops : List BPParam) : List String :=
((ops.filter isPathP).filter (fun b => !truthy (pval b.required))).map
  (fun b => reqMsg (pval b.name) m p)

/-- Names added from the path-item-level shared parameter list (no
required check happens for these). -/
def ppAddItemNames : List BPParam → List JValue → List JValue
| [], names => names
| b :: rest, names =>
  if isPathP b && !(names.any (fun x => JValue.beq x (pval b.name)))
  then ppAddItemNames rest (names ++ [pval b.name])
  else ppAddItemNames rest names

/-- All gathered path-parameter names for the single-operation document. -/
def ppAllNames (ops ips : List BPParam) : List JValue :=
ppAddItemNames ips (ppOpNames ops)

/-- The placeholder-without-declaration errors. -/
def ppNotDefErrs (m p : String) (ops ips : List BPParam) : List String :=
((scanParams p.data).filter (fun n =>
  !((ppAllNames ops ips).any (fun x => JValue.beq x (.str n))))).map
  (fun n => notDefinedMsg n p m)

/-- The declared-but-not-in-template errors. -/
def ppNotTemplErrs (m p : String) (ops ips : List BPParam) : List String :=
((ppAllNames ops ips).filter (fun x =>
  !((scanParams p.data).any (fun n => JValue.beq x (.str n))))).map
  (fun x => notInTemplateMsg x m p)

/-- A document whose operations all lack an operationId: for each listed
path, a path item declaring the listed methods with empty operations. -/
def buildNoIdDoc (ps : List (String × List Method)) : JValue :=
.obj [("paths", .obj (ps.map (fun pr =>
  (pr.1, JValue.obj (pr.2.map (fun m => (m.toStr, JValue.obj [])))))))]

/-- The expected missing-operationId errors for `buildNoIdDoc`. -/
def missingExpected (ps : List (String × List Method)) : List String :=
if ps.isEmpty then ["No paths defined in specification"]
else (ps.map (fun pr =>
  (httpMethods.filter (fun m => pr.2.any (fun mm => mm.toStr == m))).map
    (fun m => missingOpIdMsg m pr.1))).flatten

/-- A document with exactly two operations, on distinct paths, both
declaring the same operationId `x`. -/
def twoOpsDoc (p1 : String) (m1 : Method) (p2 : String) (m2 : Method)
    (x : String) : JValue :=
.obj [("paths", .obj
  [(p1, .obj [(m1.toStr, .obj [("operationId", .str x)])]),
   (p2, .obj [(m2.toStr, .obj [("operationId", .str x)])])])]

end ApiValidator

namespace ImportApis

/-- `MAX_RETRIES` (import-apis.py line 28). -/
def MAX_RETRIES : Nat := 3

/-- Outcome of one invocation of the `az apim api import` command
(import-apis.py line 123): zero return code, non-zero return code, or an
exception raised while running it. -/
inductive AttemptResult where
| ok : AttemptResult
| err : AttemptResult
| exc : AttemptResult

/-- Observable trace of a job: the result-ledger lines written (in order),
the `time.sleep` durations, the number of import attempts started, and
whether an exception escaped `import_api`. -/
structure ImportTrace where
  writes : List (String × Nat)
  sleeps : List Nat
  attemptsMade : Nat
  escaped : Bool

/-- The retry `while` loop of `import_api` (import-apis.py lines 104-171),
presented over the list of remaining `retry_count` values: the loop guard
`retry_count < MAX_RETRIES` is "the list is non-empty", and the
`retry_count + 1 < MAX_RETRIES` test after a failure (sleep and retry
versus write 400 and stop) is "the tail is non-empty".  `att i` is the
outcome of the CLI import command with `retry_count = i`; `updOk` tells
whether the post-import get/update calls succeed (their failure is caught
inside the loop and recorded as a 500 line). -/
def importGo (api_id : String) (att : Nat → AttemptResult) (updOk : Bool) :
    List Nat → ImportTrace
| [] => ⟨[], [], 0, false⟩
| i :: rest =>
  match att i with
  | .exc => ⟨[], [], 1, true⟩
  | .ok => ⟨[(api_id, if updOk then 200 else 500)], [], 1, false⟩
  | .err =>
    if rest.isEmpty then ⟨[(api_id, 400)], [], 1, false⟩
    else
      let t := importGo api_id att updOk rest
      ⟨t.writes, 10 :: t.sleeps, t.attemptsMade + 1, t.escaped⟩

/-- `import_api` (import-apis.py lines 99-171): the loop starts at
`retry_count = 0`. -/
def import_api (api_id : String) (att : Nat → AttemptResult) (updOk : Bool) :
    ImportTrace :=
  importGo api_id att updOk (List.range MAX_RETRIES)

/-- The environment a single job runs against: whether the YAML file loads
and has the expected shape, the version-set query outcome (`none` means the
query raised a non-404 error), whether creation succeeds, the per-attempt
outcomes of the CLI command and the update outcome. -/
structure JobEnv where
  parseOk : Bool
  versionSetExists : Option Bool
  createOk : Bool
  att : Nat → AttemptResult
  updOk : Bool

/-- `process_api_file` (import-apis.py lines 174-209): every failure path
writes a 500 ledger line for the file's base name (which is also the API
id), otherwise the import runs; an exception escaping `import_api` is
caught at the job boundary and recorded as 500. -/
def process_api_file (base_name : String) (e : JobEnv) : ImportTrace :=
if !e.parseOk then ⟨[(base_name, 500)], [], 0, false⟩
else
  match e.versionSetExists with
  | none => ⟨[(base_name, 500)], [], 0, false⟩
  | some ex =>
    if !ex && !e.createOk then ⟨[(base_name, 500)], [], 0, false⟩
    else
      let t := import_api base_name e.att e.updOk
      if t.escaped then ⟨t.writes ++ [(base_name, 500)], t.sleeps, t.attemptsMade, false⟩
      else t

/-- The ledger produced by running every scheduled job (import-apis.py
lines 241-252: each submitted future runs `process_api_file`; exceptions
are caught per future and never abort the pool). -/
def runJobs (jobs : List (String × JobEnv)) : List (String × Nat) :=
(jobs.map (fun j => (process_api_file j.1 j.2).writes)).flatten

/-- Python `results.update({k: v})` on an association list with unique
keys: replace in place when present, append otherwise. -/
def dictSet (d : List (String × Nat)) (k : String) (v : Nat) :
    List (String × Nat) :=
if d.any (fun p => p.1 == k) then d.map (fun p => if p.1 == k then (k, v) else p)
else d ++ [(k, v)]

/-- The summary `main` builds by folding `results.update` over the ledger
lines (import-apis.py lines 260-267). -/
def buildResults (ledger : List (String × Nat)) : List (String × Nat) :=
ledger.foldl (fun d line => dictSet d line.1 line.2) []

/-- `main` (import-apis.py lines 212-274): runs the jobs, reduces the
ledger into the summary, and returns 0 — on the empty run at line 236 and
unconditionally at line 274. -/
def main (jobs : List (String × JobEnv)) : List (String × Nat) × Nat :=
if jobs.isEmpty then ([], 0)
else (buildResults (runJobs jobs), 0)

/-- Lookup in the summary mapping. -/
def resultsLookup (d : List (String × Nat)) (k : String) : Option Nat :=
match d.find? (fun p => p.1 == k) with
| some p => some p.2
| none => none

/-- The last status written for a key in the ledger. -/
def lastStatus (ledger : List (String × Nat)) (k : String) : Option Nat :=
match ledger.reverse.find? (fun p => p.1 == k) with
| some p => some p.2
| none => none

/-- `os.path.basename` for POSIX paths: the part after the last slash. -/
def basenameCs (cs : List Char) : List Char :=
(cs.reverse.takeWhile (fun c => c ≠ '/')).reverse

/-- The root part of `os.path.splitext` for a plain base name (no
directory separators): strip the suffix after the last dot, unless every
character before that dot is itself a dot (leading-dot names keep their
suffix). -/
def splitextRootCs (cs : List Char) : List Char :=
let rev := cs.reverse
let ext := rev.takeWhile (fun c => c ≠ '.')
if ext.length = cs.length then cs
else if (rev.drop (ext.length + 1)).all (fun c => c = '.') then cs
else cs.take (cs.length - (ext.length + 1))

/-- The API identifier / gateway version-set key `process_api_file`
derives from a file path (import-apis.py lines 177-190): the base name
without its extension, used unchanged as `api_name`, `api_id` and
`api_path`. -/
def derived_api_key (file : String) : String :=
String.mk (splitextRootCs (basenameCs file.data))

end ImportApis

namespace ApiAzure

/-- The version-set key derived in `apiazure.main` (apiazure.py line 54):
`re.split('-|\.', file)[0]`, the token before the first hyphen or dot. -/
def vset_key (file : String) : String :=
String.mk (file.data.takeWhile (fun c => c ≠ '-' && c ≠ '.'))

/-- Character class `[a-zA-Z0-9_]` of the file-name regex in
`apiazure.main` (apiazure.py line 49). -/
def isWordChar (c : Char) : Bool :=
c.isAlphanum || c = '_'

end ApiAzure

namespace ImportApis

theorem find?_update_ne (d : List (String × Nat)) (k kq : String) (v : Nat)
    (h : kq ≠ k) :
    (d.map (fun p => if p.1 == k then (k, v) else p)).find? (fun p => p.1 == kq) =
      d.find? (fun p => p.1 == kq) := by
  induction d with
  | nil => rfl
  | cons a d ih =>
    simp only [List.map_cons]
    by_cases ha : a.1 = k
    · rw [if_pos (show (a.1 == k) = true by simp [ha])]
      have h1 : ((k, v).1 == kq) = false := by simpa using Ne.symm h
      have h2 : (a.1 == kq) = false := by simp [ha]; exact Ne.symm h
      simp only [List.find?_cons, h1, h2]
      exact ih
    · rw [if_neg (show ¬(a.1 == k) = true by simp [ha])]
      cases hq : (a.1 == kq) with
      | false =>
        simp only [List.find?_cons, hq]
        exact ih
      | true =>
        simp only [List.find?_cons, hq]

theorem find?_update_self (d : List (String × Nat)) (k : String) (v : Nat)
    (h : d.any (fun p => p.1 == k) = true) :
    (d.map (fun p => if p.1 == k then (k, v) else p)).find? (fun p => p.1 == k) =
      some (k, v) := by
  induction d with
  | nil => simp at h
  | cons a d ih =>
    simp only [List.map_cons]
    by_cases ha : a.1 = k
    · rw [if_pos (show (a.1 == k) = true by simp [ha])]
      rw [List.find?_cons_of_pos _ (by simp)]
    · rw [if_neg (show ¬(a.1 == k) = true by simp [ha])]
      rw [List.find?_cons_of_neg _ (by simp [ha])]
      refine ih ?_
      simp only [List.any_cons, Bool.or_eq_true] at h
      rcases h with h | h
      · exact absurd (by simpa using h) ha
      · exact h

theorem find?_none_of_any_false (d : List (String × Nat)) (k : String)
    (h : d.any (fun p => p.1 == k) = false) :
    d.find? (fun p => p.1 == k) = none := by
  induction d with
  | nil => rfl
  | cons a d ih =>
    simp only [List.any_cons, Bool.or_eq_false_iff] at h
    rw [List.find?_cons_of_neg _ (by simp [h.1]), ih h.2]

/-- `results.update({k: v})` sets `k` and leaves every other key alone. -/
theorem resultsLookup_dictSet (d : List (String × Nat)) (k kq : String) (v : Nat) :
    resultsLookup (dictSet d k v) kq =
      if kq = k then some v else resultsLookup d kq := by
  by_cases hAny : d.any (fun p => p.1 == k) = true
  · rw [dictSet, if_pos hAny]
    by_cases hk : kq = k
    · subst hk
      rw [resultsLookup, find?_update_self d kq v hAny]
      simp
    · rw [resultsLookup, find?_update_ne d k kq v hk, if_neg hk, resultsLookup]
  · rw [dictSet, if_neg hAny]
    rw [Bool.not_eq_true] at hAny
    by_cases hk : kq = k
    · subst hk
      rw [resultsLookup, List.find?_append, find?_none_of_any_false d kq hAny]
      simp [Option.or]
    · rw [resultsLookup, List.find?_append]
      rw [show ([(k, v)].find? fun p => p.1 == kq) = none from
        List.find?_cons_of_neg _ (by simp only [beq_iff_eq]; exact fun hh => hk hh.symm)]
      rw [if_neg hk, resultsLookup]
      cases d.find? (fun p => p.1 == kq) <;> rfl

/-- One ledger line prepended: the last status of a key prefers later lines. -/
theorem lastStatus_cons (a : String × Nat) (ls : List (String × Nat)) (k : String) :
    lastStatus (a :: ls) k =
      match lastStatus ls k with
      | some v => some v
      | none => if k = a.1 then some a.2 else none := by
  rw [lastStatus, lastStatus, List.reverse_cons, List.find?_append]
  cases h : (ls.reverse.find? fun p => p.1 == k) with
  | some p => simp [Option.or]
  | none =>
    simp only [Option.or]
    by_cases hk : k = a.1
    · have h1 : (a.1 == k) = true := by simp [hk]
      simp only [List.find?_cons, h1, hk]
      simp
    · have h1 : (a.1 == k) = false := by simp; exact fun hh => hk hh.symm
      simp only [List.find?_cons, h1, List.find?_nil]
      simp [hk]

/-- Folding the updates over the ledger lines looks up the last status. -/
theorem resultsLookup_foldl (ls : List (String × Nat)) (d : List (String × Nat))
    (k : String) :
    resultsLookup (ls.foldl (fun d line => dictSet d line.1 line.2) d) k =
      match lastStatus ls k with
      | some v => some v
      | none => resultsLookup d k := by
  induction ls generalizing d with
  | nil => rfl
  | cons a ls ih =>
    rw [List.foldl_cons, ih, lastStatus_cons]
    cases h : lastStatus ls k with
    | some v => rfl
    | none =>
      simp only []
      rw [resultsLookup_dictSet]
      by_cases hk : k = a.1 <;> simp [hk]

/-- The summary is the last-write-wins reduction of the ledger. -/
theorem buildResults_lookup (ledger : List (String × Nat)) (k : String) :
    resultsLookup (buildResults ledger) k = lastStatus ledger k := by
  rw [buildResults, resultsLookup_foldl]
  cases h : lastStatus ledger k <;> rfl

/-- `process_api_file` writes exactly one ledger line, keyed by the job's
base name, with a status in \x7b200, 400, 500\x7d, on every terminal path. -/
theorem process_writes_one (id : String) (e : JobEnv) :
    ∃ c, (process_api_file id e).writes = [(id, c)] ∧
      (c = 200 ∨ c = 400 ∨ c = 500) := by
  rcases e with ⟨po, vse, co, att, up⟩
  have hr : List.range MAX_RETRIES = [0, 1, 2] := rfl
  cases po with
  | false => exact ⟨500, by simp [process_api_file], by tauto⟩
  | true =>
    cases vse with
    | none => exact ⟨500, by simp [process_api_file], by tauto⟩
    | some ex =>
      have himp : ∃ c, (if (import_api id att up).escaped
            then (⟨(import_api id att up).writes ++ [(id, 500)],
              (import_api id att up).sleeps, (import_api id att up).attemptsMade,
              false⟩ : ImportTrace)
            else import_api id att up).writes = [(id, c)] ∧
          (c = 200 ∨ c = 400 ∨ c = 500) := by
        cases up <;> cases h0 : att 0 <;> cases h1 : att 1 <;> cases h2 : att 2 <;>
          simp [import_api, hr, importGo, h0, h1, h2]
      cases ex with
      | false =>
        cases co with
        | false => exact ⟨500, by simp [process_api_file], by tauto⟩
        | true => simpa [process_api_file] using himp
      | true => simpa [process_api_file] using himp

/-- The run ledger has exactly one line per scheduled job. -/
theorem runJobs_length (jobs : List (String × JobEnv)) :
    (runJobs jobs).length = jobs.length := by
  induction jobs with
  | nil => rfl
  | cons j rest ih =>
    obtain ⟨c, hc, _⟩ := process_writes_one j.1 j.2
    simp only [runJobs, List.map_cons, List.flatten_cons] at ih ⊢
    rw [hc]
    simpa using ih

/-- C4: every scheduled job appends exactly one outcome record to the
result ledger, keyed by its API identifier, with a status drawn from
\x7b200, 400, 500\x7d, on every terminal path — including an unexpected
exception inside the job, which is caught at the job boundary and recorded
as 500; and the run ledger holds exactly one line per scheduled job, so no
job's failure suppresses a sibling job's outcome. -/
theorem claim4_one_outcome_per_job :
    (∀ (id : String) (e : JobEnv), ∃ c, (process_api_file id e).writes = [(id, c)] ∧
      (c = 200 ∨ c = 400 ∨ c = 500)) ∧
    (∀ jobs : List (String × JobEnv), (runJobs jobs).length = jobs.length) :=
⟨process_writes_one, runJobs_length⟩

/-- C5: the import step is attempted at most `MAX_RETRIES` (3) times; a
success on attempt `k` after `k` failures short-circuits the remaining
attempts with exactly `k` fixed 10-unit backoff waits; and when all
`MAX_RETRIES` attempts fail, the job records outcome 400 after exactly
`MAX_RETRIES` attempts and `MAX_RETRIES - 1` waits. -/
theorem claim5_retry_policy (id : String) (att : Nat → AttemptResult) (updOk : Bool) :
    (import_api id att updOk).attemptsMade ≤ MAX_RETRIES ∧
    (∀ k, k < MAX_RETRIES → att k = .ok → (∀ j, j < k → att j = .err) →
      (import_api id att updOk).attemptsMade = k + 1 ∧
      (import_api id att updOk).sleeps = List.replicate k 10) ∧
    ((∀ k, k < MAX_RETRIES → att k = .err) →
      (import_api id att updOk).writes = [(id, 400)] ∧
      (import_api id att updOk).attemptsMade = MAX_RETRIES ∧
      (import_api id att updOk).sleeps = List.replicate (MAX_RETRIES - 1) 10) := by
  have hr : List.range MAX_RETRIES = [0, 1, 2] := rfl
  refine ⟨?_, ?_, ?_⟩
  · cases h0 : att 0 <;> cases h1 : att 1 <;> cases h2 : att 2 <;>
      simp [import_api, hr, importGo, h0, h1, h2, MAX_RETRIES]
  · intro k hk hok hprev
    rw [show MAX_RETRIES = 3 from rfl] at hk
    interval_cases k
    · simp [import_api, hr, importGo, hok]
    · have h0 : att 0 = .err := hprev 0 (by omega)
      simp [import_api, hr, importGo, h0, hok, List.replicate]
    · have h0 : att 0 = .err := hprev 0 (by omega)
      have h1 : att 1 = .err := hprev 1 (by omega)
      simp [import_api, hr, importGo, h0, h1, hok, List.replicate]
  · intro hall
    have h0 := hall 0 (by decide)
    have h1 := hall 1 (by decide)
    have h2 := hall 2 (by decide)
    simp [import_api, hr, importGo, h0, h1, h2, MAX_RETRIES, List.replicate]

/-- Witness for the retry policy: a step failing twice then succeeding
makes 3 attempts with exactly two 10-unit waits, and a step failing on
every attempt records a single 400 line. -/
theorem claim5_retry_policy_witness :
    (import_api "a" (fun n => if n < 2 then .err else .ok) true).attemptsMade = 3 ∧
    (import_api "a" (fun n => if n < 2 then .err else .ok) true).sleeps =
      List.replicate 2 10 ∧
    (import_api "a" (fun _ => .err) true).writes = [("a", 400)] := by
  refine ⟨?_, ?_, ?_⟩
  · exact ((claim5_retry_policy "a" _ true).2.1 2 (by decide) (by simp)
      (by intro j hj; simp [hj])).1
  · exact ((claim5_retry_policy "a" _ true).2.1 2 (by decide) (by simp)
      (by intro j hj; simp [hj])).2
  · exact ((claim5_retry_policy "a" _ true).2.2 (fun k _ => rfl)).1

/-- C1 (amended): the orchestrator's process exit indication is 0 on every
completed run, whatever the recorded statuses are; failures are visible
only in the printed summary, which maps each API identifier to the last
status written for it in the ledger. -/
theorem claim1_exit_always_zero :
    (∀ jobs : List (String × JobEnv), (main jobs).2 = 0) ∧
    (∀ (ledger : List (String × Nat)) (k : String),
      resultsLookup (buildResults ledger) k = lastStatus ledger k) := by
  refine ⟨?_, buildResults_lookup⟩
  intro jobs
  by_cases h : jobs.isEmpty <;> simp [main, h]

/-- C1 counterexample: a run whose only job records status 400 still
produces exit indication 0, so "exit is zero iff every recorded status is
200" fails on the code at this input. -/
theorem claim1_counterexample :
    (main [("a", ⟨true, some true, true, fun _ => .err, true⟩)]).2 = 0 ∧
    (main [("a", ⟨true, some true, true, fun _ => .err, true⟩)]).1 = [("a", 400)] ∧
    ¬(((main [("a", ⟨true, some true, true, fun _ => .err, true⟩)]).2 = 0) ↔
      ∀ p ∈ (main [("a", ⟨true, some true, true, fun _ => .err, true⟩)]).1,
        p.2 = 200) := by
  refine ⟨rfl, rfl, ?_⟩
  intro hiff
  have h := hiff.mp rfl ("a", 400)
    (by rw [show (main [("a", ⟨true, some true, true, fun _ => .err, true⟩)]).1 =
      [("a", 400)] from rfl]; exact List.mem_singleton.mpr rfl)
  simp at h

end ImportApis

theorem takeWhile_of_all {α : Type} (p : α → Bool) (l : List α)
    (h : l.all p = true) : l.takeWhile p = l := by
  induction l with
  | nil => rfl
  | cons a l ih =>
    simp only [List.all_cons, Bool.and_eq_true] at h
    rw [List.takeWhile_cons, if_pos h.1, ih h.2]

theorem takeWhile_append_stop {α : Type} (p : α → Bool) (A : List α) (x : α)
    (B : List α) (hA : A.all p = true) (hx : p x = false) :
    (A ++ x :: B).takeWhile p = A := by
  induction A with
  | nil => rw [List.nil_append, List.takeWhile_cons, if_neg (by simp [hx])]
  | cons a A ih =>
    simp only [List.all_cons, Bool.and_eq_true] at hA
    rw [List.cons_append, List.takeWhile_cons, if_pos hA.1, ih hA.2]

theorem word_char_facts (c : Char) (h : ApiAzure.isWordChar c = true) :
    c ≠ '-' ∧ c ≠ '.' ∧ c ≠ '/' := by
  refine ⟨?_, ?_, ?_⟩ <;> intro hc <;> rw [hc] at h <;>
    exact absurd h (by decide)

theorem digit_char_facts (c : Char) (h : c.isDigit = true) :
    c ≠ '.' ∧ c ≠ '/' := by
  constructor <;> intro hc <;> rw [hc] at h <;> exact absurd h (by decide)

theorem basenameCs_of_no_slash (cs : List Char)
    (h : ∀ c ∈ cs, c ≠ '/') : ImportApis.basenameCs cs = cs := by
  rw [ImportApis.basenameCs, takeWhile_of_all _ _ ?_, List.reverse_reverse]
  rw [List.all_eq_true]
  intro c hc
  simpa using h c (List.mem_reverse.mp hc)

theorem splitextRootCs_vname (name ds : List Char) :
    ImportApis.splitextRootCs (name ++ '-' :: 'v' :: (ds ++ ['.', 'y', 'a', 'm', 'l'])) =
      name ++ '-' :: 'v' :: ds := by
  have hrev : (name ++ '-' :: 'v' :: (ds ++ ['.', 'y', 'a', 'm', 'l'])).reverse =
      'l' :: 'm' :: 'a' :: 'y' :: '.' :: (ds.reverse ++ 'v' :: '-' :: name.reverse) := by
    simp [List.reverse_append]
  have hext : ('l' :: 'm' :: 'a' :: 'y' :: '.' ::
      (ds.reverse ++ 'v' :: '-' :: name.reverse)).takeWhile (fun c => c ≠ '.') =
      ['l', 'm', 'a', 'y'] := by
    have := takeWhile_append_stop (fun c => decide ¬(c = '.'))
      ['l', 'm', 'a', 'y'] '.' (ds.reverse ++ 'v' :: '-' :: name.reverse)
      (by decide) (by decide)
    simp only [List.cons_append, List.nil_append] at this
    exact this
  rw [ImportApis.splitextRootCs]
  simp only [hrev, hext]
  rw [if_neg ?hne]
  case hne =>
    simp only [List.length_append, List.length_cons]
    omega
  rw [if_neg ?hdots]
  case hdots =>
    intro hall
    simp only [show (('l' :: 'm' :: 'a' :: 'y' :: '.' ::
      (ds.reverse ++ 'v' :: '-' :: name.reverse)).drop (List.length ['l', 'm', 'a', 'y'] + 1)) =
      ds.reverse ++ 'v' :: '-' :: name.reverse from rfl] at hall
    rw [List.all_eq_true] at hall
    have := hall 'v' (by simp)
    exact absurd this (by decide)
  have hcs : name ++ '-' :: 'v' :: (ds ++ ['.', 'y', 'a', 'm', 'l']) =
      (name ++ '-' :: 'v' :: ds) ++ ['.', 'y', 'a', 'm', 'l'] := by simp
  have hlen : (name ++ '-' :: 'v' :: (ds ++ ['.', 'y', 'a', 'm', 'l'])).length -
      (List.length ['l', 'm', 'a', 'y'] + 1) = (name ++ '-' :: 'v' :: ds).length := by
    simp only [List.length_append, List.length_cons]
    omega
  rw [hlen, hcs, List.take_left]

mutual

theorem check_object_count (v : JValue) (path : String) :
    (ApiValidator.check_object v path).length = (subnodes v).countP isRefSibling :=
  match v with
  | .obj kvs => by
    rw [ApiValidator.check_object, subnodes, List.length_append, List.countP_cons]
    rw [refWalkKVs_count kvs path]
    by_cases h : (kvs.any (fun p => p.1 == "$ref") && decide (kvs.length > 1)) = true
    · rw [if_pos h, show isRefSibling (.obj kvs) = true from h]
      simp [Nat.add_comm]
    · rw [if_neg h, show isRefSibling (.obj kvs) = false from by
        rw [isRefSibling]; exact Bool.not_eq_true _ |>.mp h]
      simp
  | .arr xs => by
    rw [ApiValidator.check_object, subnodes, List.countP_cons]
    rw [show isRefSibling (.arr xs) = false from rfl]
    rw [refWalkArr_count xs path 0]
    simp
  | .null => by rfl
  | .bool b => by rfl
  | .num n => by rfl
  | .str s => by rfl

theorem refWalkKVs_count (kvs : List (String × JValue)) (path : String) :
    (ApiValidator.refWalkKVs kvs path).length = (subnodesKVs kvs).countP isRefSibling :=
  match kvs with
  | [] => by rfl
  | (k, v) :: rest => by
    rw [ApiValidator.refWalkKVs, subnodesKVs, List.length_append, List.countP_append]
    rw [check_object_count v (path ++ "." ++ k), refWalkKVs_count rest path]

theorem refWalkArr_count (xs : List JValue) (path : String) (i : Nat) :
    (ApiValidator.refWalkArr xs path i).length = (subnodesList xs).countP isRefSibling :=
  match xs with
  | [] => by rfl
  | x :: rest => by
    rw [ApiValidator.refWalkArr, subnodesList, List.length_append, List.countP_append]
    rw [check_object_count x (path ++ "[" ++ toString i ++ "]"),
      refWalkArr_count rest path (i + 1)]

end

/-- C8: the reference-sibling check visits every node of the document tree
(every nested mapping value and every element of every sequence) and
reports exactly one error per object node that has a `$ref` key alongside
at least one other key; an object whose only key is `$ref` is not an
offender and is never reported. -/
theorem claim8_ref_siblings :
    (∀ v : JValue, (ApiValidator.check_ref_siblings v).length =
      (subnodes v).countP isRefSibling) ∧
    (∀ r : JValue, isRefSibling (.obj [("$ref", r)]) = false) := by
  constructor
  · intro v
    rw [ApiValidator.check_ref_siblings]
    exact check_object_count v "root"
  · intro r
    rfl

theorem ok_bind {α β : Type} (a : α) (f : α → Except PyErr β) :
    (Except.ok a >>= f : Except PyErr β) = f a := rfl

theorem kvsFind_nil (k : String) : kvsFind [] k = none := rfl

theorem kvsFind_optField_append (k1 k : String) (ov : Option JValue)
    (rest : List (String × JValue)) :
    kvsFind (ApiValidator.optField k1 ov ++ rest) k =
      if k1 = k then (match ov with | some v => some v | none => kvsFind rest k)
      else kvsFind rest k := by
  cases ov with
  | none =>
    rw [show ApiValidator.optField k1 none = [] from rfl, List.nil_append]
    by_cases h : k1 = k <;> simp [h]
  | some v =>
    rw [show ApiValidator.optField k1 (some v) = [(k1, v)] from rfl,
      List.cons_append, kvsFind]
    by_cases h : k1 = k
    · rw [List.find?_cons_of_pos _ (by simp [h]), if_pos h]
    · rw [List.find?_cons_of_neg _ (by simp [h]), if_neg h, kvsFind, List.nil_append]

theorem kvsFind_optField_alone (k1 k : String) (ov : Option JValue) :
    kvsFind (ApiValidator.optField k1 ov) k =
      if k1 = k then (match ov with | some v => some v | none => none)
      else none := by
  have hx := kvsFind_optField_append k1 k ov []
  rw [List.append_nil] at hx
  rw [hx, kvsFind_nil]

namespace ApiValidator

theorem buildSpec_get_openapi (d : BSpec) :
    pyGetD (buildSpec d) "openapi" (.str "") = .ok (.str (d.openapi.getD "")) := by
  cases h : d.openapi <;>
    simp [buildSpec, pyGetD, kvsFind_optField_append, kvsFind_optField_alone, h]

theorem buildSpec_get_swagger (d : BSpec) :
    pyGetD (buildSpec d) "swagger" (.str "") = .ok (.str (d.swagger.getD "")) := by
  cases h : d.swagger <;>
    simp [buildSpec, pyGetD, kvsFind_optField_append, kvsFind_optField_alone, h]

theorem buildSpec_get_servers (d : BSpec) :
    pyGet (buildSpec d) "servers" = .ok (d.servers.getD .null) := by
  cases h : d.servers <;>
    simp [buildSpec, pyGet, pyGetD, kvsFind_optField_append, kvsFind_optField_alone, h]

theorem buildSpec_get_host (d : BSpec) :
    pyGet (buildSpec d) "host" = .ok (d.host.getD .null) := by
  cases h : d.host <;>
    simp [buildSpec, pyGet, pyGetD, kvsFind_optField_append, kvsFind_optField_alone, h]

theorem buildSpec_get_basePath (d : BSpec) :
    pyGet (buildSpec d) "basePath" = .ok (d.basePath.getD .null) := by
  cases h : d.basePath <;>
    simp [buildSpec, pyGet, pyGetD, kvsFind_optField_append, kvsFind_optField_alone, h]

theorem buildSpec_get_paths (d : BSpec) :
    pyGet (buildSpec d) "paths" = .ok ((d.paths.map (fun ps =>
      JValue.obj (ps.map (fun q => (q.1, buildPathItem q.2))))).getD .null) := by
  cases h : d.paths <;>
    simp [buildSpec, pyGet, pyGetD, kvsFind_optField_append, kvsFind_optField_alone, h]

theorem buildSpec_get_components (d : BSpec) :
    pyGet (buildSpec d) "components" =
      .ok ((d.components.map buildComponents).getD .null) := by
  cases h : d.components <;>
    simp [buildSpec, pyGet, pyGetD, kvsFind_optField_append, kvsFind_optField_alone, h]

/-- `check_servers` on a well-shaped document: the two errors fire exactly
when the respective version tag matches and the respective keys are absent
or falsy. -/
theorem check_servers_build (d : BSpec) :
    check_servers (buildSpec d) = .ok (serversExpected d) := by
  rw [check_servers]
  simp only [buildSpec_get_openapi, buildSpec_get_swagger, buildSpec_get_servers,
    buildSpec_get_host, buildSpec_get_basePath, ok_bind, pyStartsWith]
  rfl

/-- C3 (amended): for OpenAPI-3.x documents the missing-servers error is
reported exactly when the `servers` key is absent or maps to a falsy value
(such as the empty list or null): only a truthy `servers` value suppresses
it.  Literal absence and `servers: []` behave identically. -/
theorem claim3_servers_error_iff_falsy :
    (∀ d : BSpec, check_servers (buildSpec d) = .ok (serversExpected d)) ∧
    (∀ d : BSpec, ("No servers defined in OpenAPI 3.0 specification" ∈
        serversExpected d) ↔
      (strStartsWith (d.openapi.getD "") "3." = true ∧
        truthy (d.servers.getD .null) = false)) := by
  refine ⟨check_servers_build, ?_⟩
  intro d
  rw [serversExpected]
  by_cases h3 : strStartsWith (d.openapi.getD "") "3." = true
  · by_cases hs : truthy (d.servers.getD .null) = false
    · rw [if_pos (by rw [h3, hs]; rfl)]
      simp [h3, hs]
    · rw [if_neg (by rw [h3]; simpa using hs)]
      constructor
      · intro hmem
        rcases List.mem_append.mp hmem with hm | hm
        · simp at hm
        · by_cases h2 : (strStartsWith (d.swagger.getD "") "2." &&
              !(truthy (d.host.getD .null) || truthy (d.basePath.getD .null))) = true
          · rw [if_pos h2] at hm
            simp at hm
          · rw [if_neg h2] at hm
            simp at hm
      · intro hc
        exact absurd hc.2 hs
  · rw [if_neg (by
      rw [Bool.and_eq_true]
      exact fun hc => h3 hc.1)]
    constructor
    · intro hmem
      rcases List.mem_append.mp hmem with hm | hm
      · simp at hm
      · by_cases h2 : (strStartsWith (d.swagger.getD "") "2." &&
            !(truthy (d.host.getD .null) || truthy (d.basePath.getD .null))) = true
        · rw [if_pos h2] at hm
          simp at hm
        · rw [if_neg h2] at hm
          simp at hm
    · intro hc
      exact absurd hc.1 h3

/-- C3 counterexample: an OpenAPI-3.0 document whose `servers` key is
present but maps to the empty list still gets the missing-servers error,
so "present but empty yields no missing-servers error" fails on the code. -/
theorem claim3_counterexample :
    check_servers (.obj [("openapi", .str "3.0.0"), ("servers", .arr [])]) =
      .ok ["No servers defined in OpenAPI 3.0 specification"] := rfl

theorem buildParam_get_name (b : BPParam) :
    pyGet (buildParam b) "name" = .ok (pval b.name) := by
  cases h : b.name <;>
    simp [buildParam, pyGet, pyGetD, kvsFind_optField_append, kvsFind_optField_alone,
      h, pval]

theorem buildParam_get_in (b : BPParam) :
    pyGet (buildParam b) "in" = .ok (pval b.inLoc) := by
  cases h : b.inLoc <;>
    simp [buildParam, pyGet, pyGetD, kvsFind_optField_append, kvsFind_optField_alone,
      h, pval]

theorem buildParam_get_required (b : BPParam) :
    pyGet (buildParam b) "required" = .ok (pval b.required) := by
  cases h : b.required <;>
    simp [buildParam, pyGet, pyGetD, kvsFind_optField_append, kvsFind_optField_alone,
      h, pval]

/-- The operation-level parameter loop gathers the `in: path` names and
produces exactly the required=true errors of the operation-level list. -/
theorem opParamsLoop_build (m p : String) (ops : List BPParam)
    (names : List JValue) (errs : List String) :
    opParamsLoop m p (ops.map buildParam) names errs =
      .ok (names ++ ppOpNames ops, errs ++ ppReqErrs m p ops) := by
  induction ops generalizing names errs with
  | nil => simp [opParamsLoop, ppOpNames, ppReqErrs]
  | cons b rest ih =>
    simp only [List.map_cons, opParamsLoop, buildParam_get_in, buildParam_get_name,
      buildParam_get_required, ok_bind]
    by_cases hip : JValue.beq (pval b.inLoc) (.str "path") = true
    · rw [if_pos hip]
      by_cases hreq : truthy (pval b.required) = true
      · rw [if_pos hreq, ih]
        simp [ppOpNames, ppReqErrs, List.filter_cons, isPathP, hip, hreq]
      · rw [if_neg hreq, ih]
        rw [Bool.not_eq_true] at hreq
        simp [ppOpNames, ppReqErrs, List.filter_cons, isPathP, hip, hreq]
    · rw [if_neg hip, ih]
      rw [Bool.not_eq_true] at hip
      simp [ppOpNames, ppReqErrs, List.filter_cons, isPathP, hip]

/-- The path-item-level parameter loop only gathers names (no required
check). -/
theorem itemParamsLoop_build (ips : List BPParam) (names : List JValue) :
    itemParamsLoop (ips.map buildParam) names = .ok (ppAddItemNames ips names) := by
  induction ips generalizing names with
  | nil => simp [itemParamsLoop, ppAddItemNames]
  | cons b rest ih =>
    simp only [List.map_cons, itemParamsLoop, buildParam_get_in, buildParam_get_name,
      ok_bind]
    rw [ppAddItemNames]
    by_cases hc : (JValue.beq (pval b.inLoc) (.str "path") &&
        !(names.any (fun x => JValue.beq x (pval b.name)))) = true
    · rw [if_pos hc, if_pos (show (isPathP b && !(names.any (fun x =>
        JValue.beq x (pval b.name)))) = true from hc), ih]
    · rw [if_neg hc, if_neg (show ¬(isPathP b && !(names.any (fun x =>
        JValue.beq x (pval b.name)))) = true from hc), ih]

/-- `check_path_parameters` on the single-path, single-`get`-operation
document family: the output is the operation-level required errors, then
the undeclared-placeholder errors, then the not-in-template errors.  The
required=true check never fires for the path-item-level list. -/
theorem check_path_parameters_build (p : String) (ops ips : List BPParam) :
    check_path_parameters (buildPPDoc p ops ips) =
      .ok (ppReqErrs "get" p ops ++ ppNotDefErrs "get" p ops ips ++
        ppNotTemplErrs "get" p ops ips) := by
  simp [check_path_parameters, buildPPDoc, pyGet, pyGetD, kvsFind,
    List.find?_cons, pyItems, truthy, ppPathsLoop, httpMethods, ppMethodsLoop,
    ppMethodBody, pyContains, pyIndex, pyIter, ok_bind, opParamsLoop_build,
    itemParamsLoop_build, ppAllNames, ppNotDefErrs, ppNotTemplErrs]

/-- C2 (amended): the path-parameter check gathers `in: path` parameters
from both the operation level and the path-item level for placeholder
matching, but reports the "must have required=true" error only for
operation-level parameters; a path-item-level path parameter without
`required: true` yields no error. -/
theorem claim2_required_check_operation_level_only (p : String)
    (ops ips : List BPParam) :
    check_path_parameters (buildPPDoc p ops ips) =
      .ok (ppReqErrs "get" p ops ++ ppNotDefErrs "get" p ops ips ++
        ppNotTemplErrs "get" p ops ips) :=
check_path_parameters_build p ops ips

theorem any_map_toStr (ms : List Method) (m : String) :
    ((ms.map (fun mm => (mm.toStr, JValue.obj []))).any (fun q => q.1 == m)) =
      ms.any (fun mm => mm.toStr == m) := by
  induction ms with
  | nil => rfl
  | cons a t ih => simp [List.any_cons, ih]

theorem kvsFind_map_toStr (ms : List Method) (m : String)
    (h : ms.any (fun mm => mm.toStr == m) = true) :
    kvsFind (ms.map (fun mm => (mm.toStr, JValue.obj []))) m = some (.obj []) := by
  induction ms with
  | nil => simp at h
  | cons a t ih =>
    cases ha : (a.toStr == m) with
    | true =>
      rw [List.map_cons, kvsFind, List.find?_cons_of_pos _ (by simpa using ha)]
    | false =>
      rw [List.map_cons, kvsFind, List.find?_cons_of_neg _ (by simp [ha]), ← kvsFind]
      refine ih ?_
      simpa [List.any_cons, ha] using h

/-- The method loop of `check_operation_ids` over a path item whose
operations all lack an operationId: one missing error per declared
method, and the id dictionary is unchanged. -/
theorem opIdsMethods_noId (p : String) (ms : List Method) (mlist : List String)
    (ops : List (JValue × String)) (errs : List String) :
    opIdsMethods p (.obj (ms.map (fun mm => (mm.toStr, JValue.obj [])))) mlist ops errs =
      .ok (ops, errs ++ (mlist.filter (fun m =>
        ms.any (fun mm => mm.toStr == m))).map (fun m => missingOpIdMsg m p)) := by
  induction mlist generalizing errs with
  | nil => simp [opIdsMethods]
  | cons m rest ih =>
    simp only [opIdsMethods, pyContains, ok_bind, any_map_toStr]
    by_cases hp : ms.any (fun mm => mm.toStr == m) = true
    · rw [if_pos hp]
      simp only [pyIndex, kvsFind_map_toStr ms m hp, ok_bind]
      rw [if_neg (show ¬(List.any ([] : List (String × JValue))
        fun q => q.1 == "operationId") = true by simp)]
      rw [ih]
      simp [List.filter_cons, hp]
    · rw [if_neg hp, ih]
      rw [Bool.not_eq_true] at hp
      simp [List.filter_cons, hp]

/-- The path loop of `check_operation_ids` over the no-operationId
document family. -/
theorem opIdsPaths_noId (ps : List (String × List Method))
    (ops : List (JValue × String)) (errs : List String) :
    opIdsPaths (ps.map (fun pr => (pr.1,
        JValue.obj (pr.2.map (fun mm => (mm.toStr, JValue.obj [])))))) ops errs =
      .ok (ops, errs ++ (ps.map (fun pr => (httpMethods.filter (fun m =>
        pr.2.any (fun mm => mm.toStr == m))).map
          (fun m => missingOpIdMsg m pr.1))).flatten) := by
  induction ps generalizing errs with
  | nil => simp [opIdsPaths]
  | cons pr rest ih =>
    simp only [List.map_cons, opIdsPaths, opIdsMethods_noId, ok_bind]
    rw [ih]
    simp

theorem check_operation_ids_missing (ps : List (String × List Method)) :
    check_operation_ids (buildNoIdDoc ps) = .ok (missingExpected ps) := by
  cases ps with
  | nil => rfl
  | cons a t =>
    rw [check_operation_ids, buildNoIdDoc]
    simp only [List.map_cons, pyGet, pyGetD, kvsFind, List.find?_cons,
      beq_self_eq_true, Option.getD, ok_bind]
    rw [show truthy (JValue.obj ((a.1, JValue.obj (a.2.map (fun mm =>
      (mm.toStr, JValue.obj [])))) :: t.map (fun pr => (pr.1,
      JValue.obj (pr.2.map (fun mm => (mm.toStr, JValue.obj []))))))) = true from rfl]
    simp only [Bool.not_true, Bool.false_eq_true, if_false, pyItems, ok_bind]
    rw [show ((a.1, JValue.obj (a.2.map (fun mm => (mm.toStr, JValue.obj [])))) ::
      t.map (fun pr => (pr.1, JValue.obj (pr.2.map (fun mm =>
      (mm.toStr, JValue.obj []))))) : List (String × JValue)) =
      ((a :: t).map (fun pr => (pr.1, JValue.obj (pr.2.map (fun mm =>
      (mm.toStr, JValue.obj [])))))) from by simp]
    rw [opIdsPaths_noId (a :: t) [] [], missingExpected]
    simp [ok_bind]

/-- The method loop of `check_operation_ids` over a path item with exactly
one operation carrying operationId `x`: processed exactly once when its
method is listed, adding the id or reporting the duplicate. -/
theorem opIdsMethods_singleOp (p x : String) (mm : Method) (mlist : List String)
    (hnd : mlist.Nodup) (ops : List (JValue × String)) (errs : List String) :
    opIdsMethods p (.obj [(mm.toStr, .obj [("operationId", .str x)])]) mlist ops errs =
      if mm.toStr ∈ mlist then
        (match ops.find? (fun q => JValue.beq q.1 (.str x)) with
         | some q => Except.ok (ops, errs ++ [dupOpIdMsg (.str x) mm.toStr p q.2])
         | none => Except.ok (ops ++ [(JValue.str x, locString mm.toStr p)], errs))
      else .ok (ops, errs) := by
  revert hnd
  induction mlist generalizing ops errs with
  | nil => intro _; simp [opIdsMethods]
  | cons m rest ih =>
    intro hnd
    obtain ⟨hhead, htail⟩ := List.nodup_cons.mp hnd
    simp only [opIdsMethods]
    by_cases hm : mm.toStr = m
    · subst hm
      have hc1 : pyContains (JValue.obj [(mm.toStr,
          JValue.obj [("operationId", JValue.str x)])]) mm.toStr = .ok true := by
        simp [pyContains]
      rw [hc1, ok_bind, if_pos rfl]
      have hc2 : pyIndex (JValue.obj [(mm.toStr,
          JValue.obj [("operationId", JValue.str x)])]) mm.toStr =
          .ok (JValue.obj [("operationId", JValue.str x)]) := by
        simp [pyIndex, kvsFind, List.find?_cons]
      rw [hc2, ok_bind]
      rw [show pyContains (JValue.obj [("operationId", JValue.str x)])
        "operationId" = .ok true from rfl, ok_bind, if_pos rfl]
      rw [show pyIndex (JValue.obj [("operationId", JValue.str x)])
        "operationId" = .ok (JValue.str x) from rfl, ok_bind]
      rw [if_pos (List.mem_cons_self mm.toStr rest)]
      cases hfind : ops.find? (fun q => JValue.beq q.1 (.str x)) with
      | some q =>
        simp only []
        rw [ih _ _ htail, if_neg hhead]
      | none =>
        simp only []
        rw [ih _ _ htail, if_neg hhead]
    · have hc1 : pyContains (JValue.obj [(mm.toStr,
          JValue.obj [("operationId", JValue.str x)])]) m = .ok false := by
        simp [pyContains]
        exact fun hh => hm hh
      rw [hc1, ok_bind, if_neg (by simp)]
      rw [ih _ _ htail]
      by_cases hin : mm.toStr ∈ rest
      · rw [if_pos hin, if_pos (List.mem_cons_of_mem _ hin)]
      · rw [if_neg hin, if_neg (by simp [List.mem_cons, hm, hin])]

theorem check_operation_ids_twoOps (p1 p2 : String) (m1 m2 : Method) (x : String) :
    check_operation_ids (twoOpsDoc p1 m1 p2 m2 x) =
      .ok [dupOpIdMsg (.str x) m2.toStr p2 (locString m1.toStr p1)] := by
  rw [check_operation_ids, twoOpsDoc]
  simp only [pyGet, pyGetD, kvsFind, List.find?_cons, beq_self_eq_true,
    Option.getD, ok_bind]
  rw [show truthy (JValue.obj [(p1, JValue.obj [(m1.toStr,
    JValue.obj [("operationId", JValue.str x)])]), (p2, JValue.obj [(m2.toStr,
    JValue.obj [("operationId", JValue.str x)])])]) = true from rfl]
  simp only [Bool.not_true, Bool.false_eq_true, if_false, pyItems, ok_bind]
  simp only [opIdsPaths]
  rw [opIdsMethods_singleOp p1 x m1 httpMethods (by decide) [] []]
  rw [if_pos (show m1.toStr ∈ httpMethods from by cases m1 <;> decide)]
  rw [show ([] : List (JValue × String)).find?
    (fun q => JValue.beq q.1 (.str x)) = none from rfl]
  simp only [ok_bind, List.nil_append]
  rw [opIdsMethods_singleOp p2 x m2 httpMethods (by decide)
    [(JValue.str x, locString m1.toStr p1)] []]
  rw [if_pos (show m2.toStr ∈ httpMethods from by cases m2 <;> decide)]
  rw [show List.find? (fun q => JValue.beq q.1 (JValue.str x))
      [(JValue.str x, locString m1.toStr p1)] =
      some (JValue.str x, locString m1.toStr p1) from
    List.find?_cons_of_pos _ (by simp [JValue.beq])]
  simp [ok_bind]

/-- C7: every declared (method, path) operation lacking an operationId
yields one missing-operationId error, and a document containing exactly
two operations sharing one operationId yields exactly one
duplicate-operationId error that names both locations (the current one and
the stored first one). -/
theorem claim7_operation_ids :
    (∀ ps : List (String × List Method), (ps.map Prod.fst).Nodup →
      check_operation_ids (buildNoIdDoc ps) = .ok (missingExpected ps)) ∧
    (∀ (p1 p2 : String) (m1 m2 : Method) (x : String), p1 ≠ p2 →
      check_operation_ids (twoOpsDoc p1 m1 p2 m2 x) =
        .ok [dupOpIdMsg (.str x) m2.toStr p2 (locString m1.toStr p1)]) :=
⟨fun ps _ => check_operation_ids_missing ps,
 fun p1 p2 m1 m2 x _ => check_operation_ids_twoOps p1 p2 m1 m2 x⟩

/-- Witness for the operationId claims at concrete documents. -/
theorem claim7_operation_ids_witness :
    check_operation_ids (buildNoIdDoc [("/a", [Method.get])]) =
      .ok (missingExpected [("/a", [Method.get])]) ∧
    check_operation_ids (twoOpsDoc "/a" Method.get "/b" Method.post "x") =
      .ok [dupOpIdMsg (.str "x") Method.post.toStr "/b"
        (locString Method.get.toStr "/a")] :=
⟨claim7_operation_ids.1 [("/a", [Method.get])] (by simp),
 claim7_operation_ids.2 "/a" "/b" Method.get Method.post "x" (by decide)⟩

theorem kvsFind_append_none (a b : List (String × JValue)) (k : String)
    (h : kvsFind a k = none) : kvsFind (a ++ b) k = kvsFind b k := by
  induction a with
  | nil => rw [List.nil_append]
  | cons x rest ih =>
    rw [kvsFind] at h
    cases hx : (x.1 == k) with
    | true =>
      rw [@List.find?_cons_of_pos _ (fun q => q.1 == k) x rest hx] at h
      simp at h
    | false =>
      rw [List.find?_cons_of_neg _ (by simp [hx])] at h
      rw [List.cons_append, kvsFind, List.find?_cons_of_neg _ (by simp [hx]), ← kvsFind]
      exact ih h

theorem pyContains_obj (kvs : List (String × JValue)) (k : String) :
    pyContains (.obj kvs) k = .ok (kvs.any (fun q => q.1 == k)) := rfl

theorem pyItems_obj (kvs : List (String × JValue)) :
    pyItems (.obj kvs) = .ok kvs := rfl

theorem pyKeys_obj (kvs : List (String × JValue)) :
    pyKeys (.obj kvs) = .ok (kvs.map (fun q => q.1)) := rfl

theorem any_eq_isSome_kvsFind (kvs : List (String × JValue)) (k : String) :
    kvs.any (fun q => q.1 == k) = (kvsFind kvs k).isSome := by
  induction kvs with
  | nil => rfl
  | cons a rest ih =>
    cases ha : (a.1 == k) with
    | true =>
      rw [List.any_cons, ha, Bool.true_or, kvsFind,
        @List.find?_cons_of_pos _ (fun q => q.1 == k) a rest ha]
      rfl
    | false =>
      rw [List.any_cons, ha, Bool.false_or, kvsFind, List.find?_cons_of_neg _ (by simp [ha])]
      exact ih

theorem pyIndex_of_kvsFind (kvs : List (String × JValue)) (k : String) (v : JValue)
    (h : kvsFind kvs k = some v) : pyIndex (.obj kvs) k = .ok v := by
  rw [pyIndex, h]

theorem kvsFind_of_mem_keys (kvs : List (String × JValue)) (s : String)
    (h : s ∈ kvs.map (fun q => q.1)) : ∃ v, kvsFind kvs s = some v := by
  induction kvs with
  | nil => simp at h
  | cons a rest ih =>
    by_cases ha : a.1 = s
    · exact ⟨a.2, by rw [kvsFind, List.find?_cons_of_pos _ (by simp [ha])]⟩
    · rw [kvsFind, List.find?_cons_of_neg _ (by simp [ha]), ← kvsFind]
      refine ih ?_
      simp only [List.map_cons, List.mem_cons] at h
      exact h.resolve_left (fun hh => ha hh.symm)

theorem oper_find_opId (o : BOper) :
    kvsFind (optField "operationId" (o.opId.map JValue.str) ++
      optField "parameters" (o.parameters.map (fun ps => JValue.arr (ps.map JValue.obj))) ++
      optField "requestBody" (o.requestBody.map buildReq) ++
      optField "responses" (o.responses.map (fun rs =>
        JValue.obj (rs.map (fun q => (q.1, buildResp q.2)))))) "operationId" =
      o.opId.map JValue.str := by
  cases o.opId <;> simp [kvsFind_optField_append, kvsFind_optField_alone]

theorem oper_find_params (o : BOper) :
    kvsFind (optField "operationId" (o.opId.map JValue.str) ++
      optField "parameters" (o.parameters.map (fun ps => JValue.arr (ps.map JValue.obj))) ++
      optField "requestBody" (o.requestBody.map buildReq) ++
      optField "responses" (o.responses.map (fun rs =>
        JValue.obj (rs.map (fun q => (q.1, buildResp q.2)))))) "parameters" =
      o.parameters.map (fun ps => JValue.arr (ps.map JValue.obj)) := by
  cases o.opId <;> cases o.parameters <;>
    simp [kvsFind_optField_append, kvsFind_optField_alone]

theorem oper_find_reqBody (o : BOper) :
    kvsFind (optField "operationId" (o.opId.map JValue.str) ++
      optField "parameters" (o.parameters.map (fun ps => JValue.arr (ps.map JValue.obj))) ++
      optField "requestBody" (o.requestBody.map buildReq) ++
      optField "responses" (o.responses.map (fun rs =>
        JValue.obj (rs.map (fun q => (q.1, buildResp q.2)))))) "requestBody" =
      o.requestBody.map buildReq := by
  cases o.opId <;> cases o.parameters <;> cases o.requestBody <;>
    simp [kvsFind_optField_append, kvsFind_optField_alone]

theorem oper_find_responses (o : BOper) :
    kvsFind (optField "operationId" (o.opId.map JValue.str) ++
      optField "parameters" (o.parameters.map (fun ps => JValue.arr (ps.map JValue.obj))) ++
      optField "requestBody" (o.requestBody.map buildReq) ++
      optField "responses" (o.responses.map (fun rs =>
        JValue.obj (rs.map (fun q => (q.1, buildResp q.2)))))) "responses" =
      o.responses.map (fun rs => JValue.obj (rs.map (fun q => (q.1, buildResp q.2)))) := by
  cases o.opId <;> cases o.parameters <;> cases o.requestBody <;> cases o.responses <;>
    simp [kvsFind_optField_append, kvsFind_optField_alone]

theorem pathItem_ops_find_ne (l : List (Method × BOper)) (k : String)
    (h : ∀ mm : Method, mm.toStr ≠ k) :
    kvsFind (l.map (fun q => (q.1.toStr, buildOper q.2))) k = none := by
  induction l with
  | nil => rfl
  | cons a rest ih =>
    rw [List.map_cons, kvsFind, List.find?_cons_of_neg _ (by simp [h a.1]), ← kvsFind]
    exact ih

theorem pathItem_find_parameters (pi : BPathItem) :
    kvsFind (pi.ops.map (fun q => (q.1.toStr, buildOper q.2)) ++
      optField "parameters" (pi.parameters.map (fun ps => JValue.arr (ps.map JValue.obj))))
      "parameters" =
      pi.parameters.map (fun ps => JValue.arr (ps.map JValue.obj)) := by
  rw [kvsFind_append_none]
  · cases pi.parameters <;> simp [kvsFind_optField_alone]
  · exact pathItem_ops_find_ne pi.ops "parameters" (fun mm => by cases mm <;> decide)

theorem pathItem_find_method (l : List (Method × BOper)) (pv : Option (List KVs))
    (m : String) (hm : m ≠ "parameters") (v : JValue)
    (h : kvsFind (l.map (fun q => (q.1.toStr, buildOper q.2)) ++
      optField "parameters" (pv.map (fun ps => JValue.arr (ps.map JValue.obj))))
      m = some v) : ∃ o : BOper, v = buildOper o := by
  revert h
  induction l with
  | nil =>
    intro h
    rw [List.map_nil, List.nil_append, kvsFind_optField_alone,
      if_neg (fun hh => hm hh.symm)] at h
    exact absurd h (by simp)
  | cons a rest ih =>
    intro h
    by_cases ha : a.1.toStr = m
    · rw [List.map_cons, List.cons_append, kvsFind,
        @List.find?_cons_of_pos _ (fun q => q.1 == m) (a.1.toStr, buildOper a.2)
          (rest.map (fun q => (q.1.toStr, buildOper q.2)) ++ optField "parameters"
            (pv.map (fun ps => JValue.arr (ps.map JValue.obj)))) (by simp [ha])] at h
      exact ⟨a.2, by injection h with hh; exact hh.symm⟩
    · rw [List.map_cons, List.cons_append, kvsFind,
        List.find?_cons_of_neg _ (by simp [ha]), ← kvsFind] at h
      exact ih h

theorem flow_find_scopes (f : BFlow) :
    kvsFind (optField "scopes" (f.scopes.map JValue.obj)) "scopes" =
      f.scopes.map JValue.obj := by
  cases f.scopes <;> simp [kvsFind_optField_alone]

theorem scheme_find_type (s : BScheme) :
    kvsFind (optField "type" s.type ++ optField "flows" (s.flows.map (fun fs =>
      JValue.obj (fs.map (fun q => (q.1, buildFlow q.2)))))) "type" = s.type := by
  cases s.type <;> simp [kvsFind_optField_append, kvsFind_optField_alone]

theorem scheme_find_flows (s : BScheme) :
    kvsFind (optField "type" s.type ++ optField "flows" (s.flows.map (fun fs =>
      JValue.obj (fs.map (fun q => (q.1, buildFlow q.2)))))) "flows" =
      s.flows.map (fun fs => JValue.obj (fs.map (fun q => (q.1, buildFlow q.2)))) := by
  cases s.type <;> cases s.flows <;>
    simp [kvsFind_optField_append, kvsFind_optField_alone]

theorem resp_find_descr (r : BResp) :
    kvsFind (optField "description" r.descr ++ optField "content" (r.content.map JValue.obj))
      "description" = r.descr := by
  cases r.descr <;> simp [kvsFind_optField_append, kvsFind_optField_alone]

theorem resp_find_content (r : BResp) :
    kvsFind (optField "description" r.descr ++ optField "content" (r.content.map JValue.obj))
      "content" = r.content.map JValue.obj := by
  cases r.descr <;> cases r.content <;>
    simp [kvsFind_optField_append, kvsFind_optField_alone]

theorem req_find_content (r : BReq) :
    kvsFind (optField "content" (r.content.map JValue.obj)) "content" =
      r.content.map JValue.obj := by
  cases r.content <;> simp [kvsFind_optField_alone]

theorem comps_find_schemes (c : BComponents) :
    kvsFind (optField "securitySchemes" (c.securitySchemes.map (fun ss =>
      JValue.obj (ss.map (fun q => (q.1, buildScheme q.2)))))) "securitySchemes" =
      c.securitySchemes.map (fun ss => JValue.obj (ss.map (fun q => (q.1, buildScheme q.2)))) := by
  cases c.securitySchemes <;> simp [kvsFind_optField_alone]

/-- Key-value list of a built path item. -/
def pathItemKvs (pi : BPathItem) : List (String × JValue) :=
pi.ops.map (fun q => (q.1.toStr, buildOper q.2)) ++
  optField "parameters" (pi.parameters.map (fun ps => JValue.arr (ps.map JValue.obj)))

/-- Key-value list of a built operation. -/
def operKvs (o : BOper) : List (String × JValue) :=
optField "operationId" (o.opId.map JValue.str) ++
  optField "parameters" (o.parameters.map (fun ps => JValue.arr (ps.map JValue.obj))) ++
  optField "requestBody" (o.requestBody.map buildReq) ++
  optField "responses" (o.responses.map (fun rs =>
    JValue.obj (rs.map (fun q => (q.1, buildResp q.2)))))

theorem buildPathItem_eq (pi : BPathItem) : buildPathItem pi = .obj (pathItemKvs pi) := rfl

theorem buildOper_eq (o : BOper) : buildOper o = .obj (operKvs o) := rfl

theorem pyGetD_obj (kvs : List (String × JValue)) (k : String) (dflt : JValue) :
    pyGetD (.obj kvs) k dflt = .ok ((kvsFind kvs k).getD dflt) := rfl

theorem pathItem_contains (pi : BPathItem) (m : String) :
    pyContains (buildPathItem pi) m = .ok ((kvsFind (pathItemKvs pi) m).isSome) := by
  rw [buildPathItem_eq, pyContains_obj, any_eq_isSome_kvsFind]

theorem pathItem_index (pi : BPathItem) (m : String) (v : JValue)
    (h : kvsFind (pathItemKvs pi) m = some v) :
    pyIndex (buildPathItem pi) m = .ok v := by
  rw [buildPathItem_eq]
  exact pyIndex_of_kvsFind _ _ _ h

theorem oper_contains_opId (o : BOper) :
    pyContains (buildOper o) "operationId" = .ok (o.opId.map JValue.str).isSome := by
  rw [buildOper_eq, pyContains_obj, any_eq_isSome_kvsFind]
  rw [show kvsFind (operKvs o) "operationId" = o.opId.map JValue.str from oper_find_opId o]

theorem oper_index_opId (o : BOper) (sx : String) (h : o.opId = some sx) :
    pyIndex (buildOper o) "operationId" = .ok (.str sx) := by
  rw [buildOper_eq]
  refine pyIndex_of_kvsFind _ _ _ ?_
  rw [show kvsFind (operKvs o) "operationId" =
    o.opId.map JValue.str from oper_find_opId o]
  rw [h]
  rfl

theorem oper_contains_params (o : BOper) :
    pyContains (buildOper o) "parameters" =
      .ok (o.parameters.map (fun ps => JValue.arr (ps.map JValue.obj))).isSome := by
  rw [buildOper_eq, pyContains_obj, any_eq_isSome_kvsFind]
  rw [show kvsFind (operKvs o) "parameters" =
    o.parameters.map (fun ps => JValue.arr (ps.map JValue.obj)) from oper_find_params o]

theorem oper_getD_params (o : BOper) (dflt : JValue) :
    pyGetD (buildOper o) "parameters" dflt =
      .ok ((o.parameters.map (fun ps => JValue.arr (ps.map JValue.obj))).getD dflt) := by
  rw [buildOper_eq, pyGetD_obj]
  rw [show kvsFind (operKvs o) "parameters" =
    o.parameters.map (fun ps => JValue.arr (ps.map JValue.obj)) from oper_find_params o]

theorem oper_contains_reqBody (o : BOper) :
    pyContains (buildOper o) "requestBody" =
      .ok (o.requestBody.map buildReq).isSome := by
  rw [buildOper_eq, pyContains_obj, any_eq_isSome_kvsFind]
  rw [show kvsFind (operKvs o) "requestBody" =
    o.requestBody.map buildReq from oper_find_reqBody o]

theorem oper_index_reqBody (o : BOper) (r : BReq) (h : o.requestBody = some r) :
    pyIndex (buildOper o) "requestBody" = .ok (buildReq r) := by
  rw [buildOper_eq]
  refine pyIndex_of_kvsFind _ _ _ ?_
  rw [show kvsFind (operKvs o) "requestBody" =
    o.requestBody.map buildReq from oper_find_reqBody o]
  rw [h]
  rfl

theorem oper_contains_responses (o : BOper) :
    pyContains (buildOper o) "responses" =
      .ok (o.responses.map (fun rs =>
        JValue.obj (rs.map (fun q => (q.1, buildResp q.2))))).isSome := by
  rw [buildOper_eq, pyContains_obj, any_eq_isSome_kvsFind]
  rw [show kvsFind (operKvs o) "responses" = o.responses.map (fun rs =>
    JValue.obj (rs.map (fun q => (q.1, buildResp q.2)))) from oper_find_responses o]

theorem oper_index_responses (o : BOper) (rs : List (String × BResp))
    (h : o.responses = some rs) :
    pyIndex (buildOper o) "responses" =
      .ok (JValue.obj (rs.map (fun q => (q.1, buildResp q.2)))) := by
  rw [buildOper_eq]
  refine pyIndex_of_kvsFind _ _ _ ?_
  rw [show kvsFind (operKvs o) "responses" =
    o.responses.map (fun rs2 => JValue.obj (rs2.map (fun q => (q.1, buildResp q.2))))
    from oper_find_responses o]
  rw [h]
  rfl

/-- The method loop of `check_operation_ids` cannot raise on a well-shaped
path item when the iterated method names avoid the `parameters` key. -/
theorem opIdsMethods_build_ok (p : String) (pi : BPathItem) (mlist : List String)
    (hm : ∀ m ∈ mlist, m ≠ "parameters") (ops : List (JValue × String))
    (errs : List String) :
    ∃ r, opIdsMethods p (buildPathItem pi) mlist ops errs = .ok r := by
  induction mlist generalizing ops errs with
  | nil => exact ⟨_, rfl⟩
  | cons m rest ih =>
    have hmne := hm m (List.mem_cons_self m rest)
    have hmrest : ∀ m2 ∈ rest, m2 ≠ "parameters" :=
      fun m2 h2 => hm m2 (List.mem_cons_of_mem _ h2)
    simp only [opIdsMethods, pathItem_contains, ok_bind]
    cases hfind : kvsFind (pathItemKvs pi) m with
    | none =>
      rw [if_neg (by simp)]
      exact ih hmrest ops errs
    | some v =>
      obtain ⟨o, rfl⟩ := pathItem_find_method pi.ops pi.parameters m hmne v hfind
      rw [if_pos (by simp)]
      rw [pathItem_index pi m _ hfind, ok_bind]
      rw [oper_contains_opId, ok_bind]
      cases ho : o.opId with
      | none =>
        rw [if_neg (by simp [ho])]
        exact ih hmrest ops (errs ++ [missingOpIdMsg m p])
      | some sx =>
        rw [if_pos (by simp [ho])]
        rw [oper_index_opId o sx ho, ok_bind]
        cases hf : ops.find? (fun q => JValue.beq q.1 (.str sx)) with
        | some q =>
          simp only []
          exact ih hmrest ops (errs ++ [dupOpIdMsg (.str sx) m p q.2])
        | none =>
          simp only []
          exact ih hmrest (ops ++ [(JValue.str sx, locString m p)]) errs

/-- The path loop of `check_operation_ids` cannot raise on well-shaped
path items. -/
theorem opIdsPaths_build_ok (items : List (String × BPathItem))
    (ops : List (JValue × String)) (errs : List String) :
    ∃ r, opIdsPaths (items.map (fun q => (q.1, buildPathItem q.2))) ops errs = .ok r := by
  induction items generalizing ops errs with
  | nil => exact ⟨_, rfl⟩
  | cons a rest ih =>
    simp only [List.map_cons, opIdsPaths]
    obtain ⟨r1, h1⟩ := opIdsMethods_build_ok a.1 a.2 httpMethods
      (by intro m hmem; fin_cases hmem <;> decide) ops errs
    rw [h1, ok_bind]
    exact ih r1.1 r1.2

/-- `check_operation_ids` never raises on a well-shaped document. -/
theorem check_operation_ids_build_ok (d : BSpec) :
    ∃ r, check_operation_ids (buildSpec d) = .ok r := by
  rw [check_operation_ids]
  simp only [buildSpec_get_paths, ok_bind]
  cases hp : d.paths with
  | none => exact ⟨_, rfl⟩
  | some ps =>
    cases ps with
    | nil => exact ⟨_, rfl⟩
    | cons a rest =>
      rw [if_neg (by simp [truthy])]
      simp only [Option.map_some', Option.getD_some, pyItems_obj, ok_bind]
      obtain ⟨r, hr⟩ := opIdsPaths_build_ok (a :: rest) [] []
      rw [hr, ok_bind]
      exact ⟨_, rfl⟩

theorem pyGet_obj (kvs : List (String × JValue)) (k : String) :
    pyGet (.obj kvs) k = .ok ((kvsFind kvs k).getD .null) := rfl

theorem pyIter_arr (xs : List JValue) : pyIter (.arr xs) = .ok xs := rfl

theorem pyLen_obj (kvs : List (String × JValue)) :
    pyLen (.obj kvs) = .ok kvs.length := rfl

theorem pathItem_getD_params (pi : BPathItem) (dflt : JValue) :
    pyGetD (buildPathItem pi) "parameters" dflt =
      .ok ((pi.parameters.map (fun ps => JValue.arr (ps.map JValue.obj))).getD dflt) := by
  rw [buildPathItem_eq, pyGetD_obj]
  rw [show kvsFind (pathItemKvs pi) "parameters" =
    pi.parameters.map (fun ps => JValue.arr (ps.map JValue.obj))
    from pathItem_find_parameters pi]

/-- The operation-level parameter loop never raises when every parameter
is a mapping. -/
theorem opParamsLoop_objs_ok (m p : String) (ps : List KVs)
    (names : List JValue) (errs : List String) :
    ∃ r, opParamsLoop m p (ps.map JValue.obj) names errs = .ok r := by
  induction ps generalizing names errs with
  | nil => exact ⟨_, rfl⟩
  | cons kvs rest ih =>
    simp only [List.map_cons, opParamsLoop, pyGet_obj, ok_bind]
    by_cases h1 : JValue.beq ((kvsFind kvs "in").getD .null) (.str "path") = true
    · rw [if_pos h1]
      by_cases h2 : truthy ((kvsFind kvs "required").getD .null) = true
      · rw [if_pos h2]
        exact ih _ _
      · rw [if_neg h2]
        exact ih _ _
    · rw [if_neg h1]
      exact ih _ _

/-- The path-item-level parameter loop never raises when every parameter
is a mapping. -/
theorem itemParamsLoop_objs_ok (ps : List KVs) (names : List JValue) :
    ∃ r, itemParamsLoop (ps.map JValue.obj) names = .ok r := by
  induction ps generalizing names with
  | nil => exact ⟨_, rfl⟩
  | cons kvs rest ih =>
    simp only [List.map_cons, itemParamsLoop, pyGet_obj, ok_bind]
    by_cases h1 : (JValue.beq ((kvsFind kvs "in").getD .null) (.str "path") &&
        !(names.any (fun x => JValue.beq x ((kvsFind kvs "name").getD .null)))) = true
    · rw [if_pos h1]
      exact ih _
    · rw [if_neg h1]
      exact ih _

/-- `ppMethodBody` never raises on a well-shaped path item. -/
theorem ppMethodBody_build_ok (p2 : String) (pi : BPathItem) (errs : List String)
    (m : String) (hm : m ≠ "parameters") :
    ∃ r, ppMethodBody p2 (buildPathItem pi) errs m = .ok r := by
  simp only [ppMethodBody, pathItem_contains, ok_bind]
  cases hfind : kvsFind (pathItemKvs pi) m with
  | none =>
    rw [if_pos (by simp)]
    exact ⟨_, rfl⟩
  | some v =>
    obtain ⟨o, rfl⟩ := pathItem_find_method pi.ops pi.parameters m hm v hfind
    rw [if_neg (by simp)]
    rw [pathItem_index pi m _ hfind, ok_bind]
    rw [oper_contains_params, ok_bind]
    rw [show kvsFind (pathItemKvs pi) "parameters" =
      pi.parameters.map (fun ps => JValue.arr (ps.map JValue.obj))
      from pathItem_find_parameters pi]
    cases hop : o.parameters with
    | none =>
      rw [if_neg (by simp)]
      cases hip : pi.parameters with
      | none =>
        rw [if_neg (by simp)]
        exact ⟨_, rfl⟩
      | some ips =>
        rw [if_pos (by simp)]
        rw [pathItem_getD_params, hip, ok_bind]
        rw [show pyIter ((Option.map (fun ps => JValue.arr (ps.map JValue.obj))
          (some ips)).getD (.arr [])) = .ok (ips.map JValue.obj) from rfl, ok_bind]
        obtain ⟨r2, h2⟩ := itemParamsLoop_objs_ok ips []
        rw [h2, ok_bind]
        exact ⟨_, rfl⟩
    | some ps =>
      rw [if_pos (by simp)]
      rw [oper_getD_params, hop, ok_bind]
      rw [show pyIter ((Option.map (fun ps => JValue.arr (ps.map JValue.obj))
        (some ps)).getD (.arr [])) = .ok (ps.map JValue.obj) from rfl, ok_bind]
      obtain ⟨r1, h1⟩ := opParamsLoop_objs_ok m p2 ps [] errs
      rw [h1, ok_bind]
      cases hip : pi.parameters with
      | none =>
        rw [if_neg (by simp)]
        exact ⟨_, rfl⟩
      | some ips =>
        rw [if_pos (by simp)]
        rw [pathItem_getD_params, hip, ok_bind]
        rw [show pyIter ((Option.map (fun ps => JValue.arr (ps.map JValue.obj))
          (some ips)).getD (.arr [])) = .ok (ips.map JValue.obj) from rfl, ok_bind]
        obtain ⟨r2, h2⟩ := itemParamsLoop_objs_ok ips r1.1
        rw [h2, ok_bind]
        exact ⟨_, rfl⟩

/-- `check_path_parameters` never raises on a well-shaped document. -/
theorem check_path_parameters_build_ok (d : BSpec) :
    ∃ r, check_path_parameters (buildSpec d) = .ok r := by
  have hloop : ∀ (items : List (String × BPathItem)) (errs : List String),
      ∃ r, ppPathsLoop (items.map (fun q => (q.1, buildPathItem q.2))) errs = .ok r := by
    intro items
    induction items with
    | nil => exact fun errs => ⟨_, rfl⟩
    | cons a rest ih =>
      intro errs
      simp only [List.map_cons, ppPathsLoop]
      have hms : ∀ (mlist : List String), (∀ m ∈ mlist, m ≠ "parameters") →
          ∀ errs2, ∃ r, ppMethodsLoop a.1 (buildPathItem a.2) mlist errs2 = .ok r := by
        intro mlist
        induction mlist with
        | nil => exact fun _ _ => ⟨_, rfl⟩
        | cons m ms ihm =>
          intro hmm errs2
          simp only [ppMethodsLoop]
          obtain ⟨r1, h1⟩ := ppMethodBody_build_ok a.1 a.2 errs2 m
            (hmm m (List.mem_cons_self m ms))
          rw [h1, ok_bind]
          exact ihm (fun m2 h2 => hmm m2 (List.mem_cons_of_mem _ h2)) r1
      obtain ⟨r1, h1⟩ := hms httpMethods
        (by intro m hmem; fin_cases hmem <;> decide) errs
      rw [h1, ok_bind]
      exact ih r1
  rw [check_path_parameters]
  simp only [buildSpec_get_paths, ok_bind]
  cases hp : d.paths with
  | none => exact ⟨_, rfl⟩
  | some ps =>
    cases ps with
    | nil => exact ⟨_, rfl⟩
    | cons a rest =>
      rw [if_neg (by simp [truthy])]
      simp only [Option.map_some', Option.getD_some, pyItems_obj, ok_bind]
      obtain ⟨r, hr⟩ := hloop (a :: rest) []
      rw [hr]
      exact ⟨_, rfl⟩

theorem flow_get_scopes (f : BFlow) :
    pyGet (buildFlow f) "scopes" = .ok ((f.scopes.map JValue.obj).getD .null) := by
  rw [show buildFlow f = .obj (optField "scopes" (f.scopes.map JValue.obj)) from rfl,
    pyGet_obj]
  rw [flow_find_scopes]

theorem flow_index_scopes (f : BFlow) (kvs : KVs) (h : f.scopes = some kvs) :
    pyIndex (buildFlow f) "scopes" = .ok (.obj kvs) := by
  rw [show buildFlow f = .obj (optField "scopes" (f.scopes.map JValue.obj)) from rfl]
  refine pyIndex_of_kvsFind _ _ _ ?_
  rw [flow_find_scopes, h]
  rfl

/-- The scope loop of `check_security_definitions` never raises on built
flows. -/
theorem scopesLoop_build_ok (fitems : List (String × BFlow)) (warns : List String) :
    ∃ r, scopesLoop (fitems.map (fun q => (q.1, buildFlow q.2))) warns = .ok r := by
  induction fitems generalizing warns with
  | nil => exact ⟨_, rfl⟩
  | cons a rest ih =>
    simp only [List.map_cons, scopesLoop, flow_get_scopes, ok_bind]
    cases hsc : a.2.scopes with
    | none =>
      rw [if_neg (by simp [hsc, truthy])]
      exact ih _
    | some kvs =>
      by_cases ht : truthy ((Option.map JValue.obj (some kvs)).getD .null) = true
      · rw [if_pos ht]
        rw [flow_index_scopes a.2 kvs hsc, ok_bind, pyLen_obj, ok_bind]
        exact ih _
      · rw [if_neg ht]
        exact ih _

theorem scheme_get_type (s : BScheme) :
    pyGet (buildScheme s) "type" = .ok (s.type.getD .null) := by
  rw [show buildScheme s = .obj (optField "type" s.type ++ optField "flows"
    (s.flows.map (fun fs => JValue.obj (fs.map (fun q => (q.1, buildFlow q.2)))))) from rfl,
    pyGet_obj]
  rw [scheme_find_type]

theorem scheme_get_flows (s : BScheme) :
    pyGet (buildScheme s) "flows" = .ok ((s.flows.map (fun fs =>
      JValue.obj (fs.map (fun q => (q.1, buildFlow q.2))))).getD .null) := by
  rw [show buildScheme s = .obj (optField "type" s.type ++ optField "flows"
    (s.flows.map (fun fs => JValue.obj (fs.map (fun q => (q.1, buildFlow q.2)))))) from rfl,
    pyGet_obj]
  rw [scheme_find_flows]

theorem scheme_getD_flows (s : BScheme) (dflt : JValue) :
    pyGetD (buildScheme s) "flows" dflt = .ok ((s.flows.map (fun fs =>
      JValue.obj (fs.map (fun q => (q.1, buildFlow q.2))))).getD dflt) := by
  rw [show buildScheme s = .obj (optField "type" s.type ++ optField "flows"
    (s.flows.map (fun fs => JValue.obj (fs.map (fun q => (q.1, buildFlow q.2)))))) from rfl,
    pyGetD_obj]
  rw [scheme_find_flows]

theorem scheme_index_flows (s : BScheme) (fs : List (String × BFlow))
    (h : s.flows = some fs) :
    pyIndex (buildScheme s) "flows" =
      .ok (.obj (fs.map (fun q => (q.1, buildFlow q.2)))) := by
  rw [show buildScheme s = .obj (optField "type" s.type ++ optField "flows"
    (s.flows.map (fun fs => JValue.obj (fs.map (fun q => (q.1, buildFlow q.2)))))) from rfl]
  refine pyIndex_of_kvsFind _ _ _ ?_
  rw [scheme_find_flows, h]
  rfl

/-- The scheme loop of `check_security_definitions` never raises on built
schemes. -/
theorem secLoop_build_ok (items : List (String × BScheme))
    (errs warns : List String) :
    ∃ r, secLoop (items.map (fun q => (q.1, buildScheme q.2))) errs warns = .ok r := by
  induction items generalizing errs warns with
  | nil => exact ⟨_, rfl⟩
  | cons a rest ih =>
    simp only [List.map_cons, secLoop, scheme_get_type, ok_bind]
    by_cases hoauth : JValue.beq (a.2.type.getD .null) (.str "oauth2") = true
    · rw [if_pos hoauth]
      simp only [scheme_get_flows, ok_bind]
      cases hfl : a.2.flows with
      | none =>
        rw [if_neg (by simp [truthy])]
        rw [scheme_getD_flows, hfl, ok_bind]
        rw [show pyItems ((Option.map (fun fs => JValue.obj (fs.map (fun q =>
          (q.1, buildFlow q.2)))) (none : Option (List (String × BFlow)))).getD
          (.obj [])) = .ok [] from rfl, ok_bind]
        rw [show scopesLoop [] warns = .ok warns from rfl, ok_bind]
        exact ih _ _
      | some fs =>
        by_cases ht : truthy ((Option.map (fun fs => JValue.obj (fs.map (fun q =>
            (q.1, buildFlow q.2)))) (some fs)).getD .null) = true
        · rw [if_pos ht]
          rw [scheme_index_flows a.2 fs hfl, ok_bind, pyLen_obj, ok_bind]
          rw [scheme_getD_flows, hfl, ok_bind]
          rw [show pyItems ((Option.map (fun fs => JValue.obj (fs.map (fun q =>
            (q.1, buildFlow q.2)))) (some fs)).getD (.obj [])) =
            .ok (fs.map (fun q => (q.1, buildFlow q.2))) from rfl, ok_bind]
          obtain ⟨r2, h2⟩ := scopesLoop_build_ok fs _
          rw [h2, ok_bind]
          exact ih _ _
        · rw [if_neg ht]
          rw [scheme_getD_flows, hfl, ok_bind]
          rw [show pyItems ((Option.map (fun fs => JValue.obj (fs.map (fun q =>
            (q.1, buildFlow q.2)))) (some fs)).getD (.obj [])) =
            .ok (fs.map (fun q => (q.1, buildFlow q.2))) from rfl, ok_bind]
          obtain ⟨r2, h2⟩ := scopesLoop_build_ok fs warns
          rw [h2, ok_bind]
          exact ih _ _
    · rw [if_neg hoauth]
      exact ih _ _

theorem comps_getD_schemes (c : BComponents) (dflt : JValue) :
    pyGetD (buildComponents c) "securitySchemes" dflt =
      .ok ((c.securitySchemes.map (fun ss => JValue.obj (ss.map (fun q =>
        (q.1, buildScheme q.2))))).getD dflt) := by
  rw [show buildComponents c = .obj (optField "securitySchemes"
    (c.securitySchemes.map (fun ss => JValue.obj (ss.map (fun q =>
      (q.1, buildScheme q.2)))))) from rfl, pyGetD_obj]
  rw [comps_find_schemes]

theorem comps_index_schemes (c : BComponents) (ss : List (String × BScheme))
    (h : c.securitySchemes = some ss) :
    pyIndex (buildComponents c) "securitySchemes" =
      .ok (.obj (ss.map (fun q => (q.1, buildScheme q.2)))) := by
  rw [show buildComponents c = .obj (optField "securitySchemes"
    (c.securitySchemes.map (fun ss => JValue.obj (ss.map (fun q =>
      (q.1, buildScheme q.2)))))) from rfl]
  refine pyIndex_of_kvsFind _ _ _ ?_
  rw [comps_find_schemes, h]
  rfl

/-- Key-value list of a built top-level document. -/
def specKvs (d : BSpec) : List (String × JValue) :=
optField "openapi" (d.openapi.map JValue.str) ++
  optField "swagger" (d.swagger.map JValue.str) ++
  optField "info" d.info ++
  optField "servers" d.servers ++
  optField "host" d.host ++
  optField "basePath" d.basePath ++
  optField "paths" (d.paths.map (fun ps =>
    JValue.obj (ps.map (fun q => (q.1, buildPathItem q.2))))) ++
  optField "components" (d.components.map buildComponents)

theorem buildSpec_eq (d : BSpec) : buildSpec d = .obj (specKvs d) := rfl

theorem spec_find_components (d : BSpec) :
    kvsFind (specKvs d) "components" = d.components.map buildComponents := by
  cases hc : d.components <;>
    simp [specKvs, kvsFind_optField_append, kvsFind_optField_alone, hc]

theorem buildSpec_index_components (d : BSpec) (c : BComponents)
    (h : d.components = some c) :
    pyIndex (buildSpec d) "components" = .ok (buildComponents c) := by
  rw [buildSpec_eq]
  refine pyIndex_of_kvsFind _ _ _ ?_
  rw [spec_find_components, h]
  rfl

/-- `check_security_definitions` never raises on a well-shaped document. -/
theorem check_security_definitions_build_ok (d : BSpec) :
    ∃ r, check_security_definitions (buildSpec d) = .ok r := by
  rw [check_security_definitions]
  simp only [buildSpec_get_components, ok_bind]
  cases hc : d.components with
  | none => exact ⟨_, rfl⟩
  | some c =>
    by_cases ht : truthy (buildComponents c) = true
    · rw [if_neg (by simp [ht])]
      rw [buildSpec_index_components d c hc, ok_bind]
      rw [comps_getD_schemes, ok_bind]
      cases hss : c.securitySchemes with
      | none => exact ⟨_, rfl⟩
      | some ss =>
        by_cases ht2 : truthy (JValue.obj (ss.map (fun q =>
            (q.1, buildScheme q.2)))) = true
        · rw [if_neg (by simp [ht2])]
          rw [comps_index_schemes c ss hss, ok_bind, pyItems_obj, ok_bind]
          exact secLoop_build_ok ss [] []
        · rw [if_pos (by simp at ht2; simp [ht2])]
          exact ⟨_, rfl⟩
    · rw [if_pos (by simp at ht; simp [ht])]
      exact ⟨_, rfl⟩

theorem resp_contains_content (r : BResp) :
    pyContains (buildResp r) "content" = .ok (r.content.map JValue.obj).isSome := by
  rw [show buildResp r = .obj (optField "description" r.descr ++
    optField "content" (r.content.map JValue.obj)) from rfl, pyContains_obj,
    any_eq_isSome_kvsFind]
  rw [resp_find_content]

theorem resp_index_content (r : BResp) (kvs : KVs) (h : r.content = some kvs) :
    pyIndex (buildResp r) "content" = .ok (.obj kvs) := by
  rw [show buildResp r = .obj (optField "description" r.descr ++
    optField "content" (r.content.map JValue.obj)) from rfl]
  refine pyIndex_of_kvsFind _ _ _ ?_
  rw [resp_find_content, h]
  rfl

theorem req_contains_content (r : BReq) :
    pyContains (buildReq r) "content" = .ok (r.content.map JValue.obj).isSome := by
  rw [show buildReq r = .obj (optField "content" (r.content.map JValue.obj)) from rfl,
    pyContains_obj, any_eq_isSome_kvsFind]
  rw [req_find_content]

theorem req_index_content (r : BReq) (kvs : KVs) (h : r.content = some kvs) :
    pyIndex (buildReq r) "content" = .ok (.obj kvs) := by
  rw [show buildReq r = .obj (optField "content" (r.content.map JValue.obj)) from rfl]
  refine pyIndex_of_kvsFind _ _ _ ?_
  rw [req_find_content, h]
  rfl

/-- The response loop of `check_content_types` never raises on built
responses. -/
theorem ctRespLoop_build_ok (m p : String) (rs : List (String × BResp))
    (warns : List String) :
    ∃ r, ctRespLoop m p (rs.map (fun q => (q.1, buildResp q.2))) warns = .ok r := by
  induction rs generalizing warns with
  | nil => exact ⟨_, rfl⟩
  | cons a rest ih =>
    simp only [List.map_cons, ctRespLoop, resp_contains_content, ok_bind]
    cases hct : a.2.content with
    | none =>
      rw [if_neg (by simp [hct])]
      exact ih _
    | some kvs =>
      rw [if_pos (by simp [hct])]
      rw [resp_index_content a.2 kvs hct, ok_bind, pyKeys_obj, ok_bind]
      exact ih _

/-- The responses tail of `ctMethodBody` never raises on a well-shaped
operation. -/
theorem ctRespPart_build_ok (m p2 : String) (o : BOper) (warns1 : List String) :
    ∃ r, (do
      let hasR ← pyContains (buildOper o) "responses"
      if hasR then do
        let responses ← pyIndex (buildOper o) "responses"
        let items ← pyItems responses
        ctRespLoop m p2 items warns1
      else .ok warns1) = .ok r := by
  rw [oper_contains_responses, ok_bind]
  cases hrs : o.responses with
  | none =>
    rw [if_neg (by simp)]
    exact ⟨_, rfl⟩
  | some rs =>
    rw [if_pos (by simp)]
    rw [oper_index_responses o rs hrs, ok_bind, pyItems_obj, ok_bind]
    exact ctRespLoop_build_ok m p2 rs warns1

/-- `ctMethodBody` never raises on a well-shaped path item. -/
theorem ctMethodBody_build_ok (p2 : String) (pi : BPathItem) (warns : List String)
    (m : String) (hm : m ≠ "parameters") :
    ∃ r, ctMethodBody p2 (buildPathItem pi) warns m = .ok r := by
  simp only [ctMethodBody, pathItem_contains, ok_bind]
  cases hfind : kvsFind (pathItemKvs pi) m with
  | none =>
    rw [if_pos (by simp)]
    exact ⟨_, rfl⟩
  | some v =>
    obtain ⟨o, rfl⟩ := pathItem_find_method pi.ops pi.parameters m hm v hfind
    rw [if_neg (by simp)]
    rw [pathItem_index pi m _ hfind, ok_bind]
    rw [oper_contains_reqBody, ok_bind]
    cases hrb : o.requestBody with
    | none =>
      rw [if_neg (by simp)]
      exact ctRespPart_build_ok m p2 o warns
    | some rq =>
      rw [if_pos (by simp)]
      rw [oper_index_reqBody o rq hrb, ok_bind]
      rw [req_contains_content, ok_bind]
      cases hct : rq.content with
      | none =>
        rw [if_neg (by simp)]
        exact ctRespPart_build_ok m p2 o warns
      | some kvs =>
        rw [if_pos (by simp)]
        rw [req_index_content rq kvs hct, ok_bind, pyKeys_obj, ok_bind]
        exact ctRespPart_build_ok m p2 o _

/-- `check_content_types` never raises on a well-shaped document. -/
theorem check_content_types_build_ok (d : BSpec) :
    ∃ r, check_content_types (buildSpec d) = .ok r := by
  have hloop : ∀ (items : List (String × BPathItem)) (warns : List String),
      ∃ r, ctPathsLoop (items.map (fun q => (q.1, buildPathItem q.2))) warns = .ok r := by
    intro items
    induction items with
    | nil => exact fun _ => ⟨_, rfl⟩
    | cons a rest ih =>
      intro warns
      simp only [List.map_cons, ctPathsLoop]
      have hms : ∀ (mlist : List String), (∀ m ∈ mlist, m ≠ "parameters") →
          ∀ warns2, ∃ r, ctMethodsLoop a.1 (buildPathItem a.2) mlist warns2 = .ok r := by
        intro mlist
        induction mlist with
        | nil => exact fun _ _ => ⟨_, rfl⟩
        | cons m ms ihm =>
          intro hmm warns2
          simp only [ctMethodsLoop]
          obtain ⟨r1, h1⟩ := ctMethodBody_build_ok a.1 a.2 warns2 m
            (hmm m (List.mem_cons_self m ms))
          rw [h1, ok_bind]
          exact ihm (fun m2 h2 => hmm m2 (List.mem_cons_of_mem _ h2)) r1
      obtain ⟨r1, h1⟩ := hms httpMethods
        (by intro m hmem; fin_cases hmem <;> decide) warns
      rw [h1, ok_bind]
      exact ih r1
  rw [check_content_types]
  simp only [buildSpec_get_paths, ok_bind]
  cases hp : d.paths with
  | none => exact ⟨_, rfl⟩
  | some ps =>
    cases ps with
    | nil => exact ⟨_, rfl⟩
    | cons a rest =>
      rw [if_neg (by simp [truthy])]
      simp only [Option.map_some', Option.getD_some, pyItems_obj, ok_bind]
      obtain ⟨r, hr⟩ := hloop (a :: rest) []
      rw [hr]
      exact ⟨_, rfl⟩

/-- `check_path_trailing_slashes` never raises on a well-shaped document. -/
theorem check_path_trailing_slashes_build_ok (d : BSpec) :
    ∃ r, check_path_trailing_slashes (buildSpec d) = .ok r := by
  rw [check_path_trailing_slashes]
  simp only [buildSpec_get_paths, ok_bind]
  cases hp : d.paths with
  | none => exact ⟨_, rfl⟩
  | some ps =>
    cases ps with
    | nil => exact ⟨_, rfl⟩
    | cons a rest =>
      rw [if_neg (by simp [truthy])]
      simp only [Option.map_some', Option.getD_some, pyKeys_obj, ok_bind]
      exact ⟨_, rfl⟩

/-- The status loop of `check_response_definitions` never raises when the
statuses are keys of the responses mapping. -/
theorem respStatusLoop_keys_ok (kvs : List (String × JValue)) (m p : String)
    (sts : List String) (h : ∀ s ∈ sts, s ∈ kvs.map (fun q => q.1))
    (errs : List String) (b : Bool) :
    ∃ r, respStatusLoop (.obj kvs) m p sts errs b = .ok r := by
  induction sts generalizing errs b with
  | nil => exact ⟨_, rfl⟩
  | cons s rest ih =>
    have hrest : ∀ s2 ∈ rest, s2 ∈ kvs.map (fun q => q.1) :=
      fun s2 h2 => h s2 (List.mem_cons_of_mem _ h2)
    rw [respStatusLoop]
    by_cases hs : statusStarts2or3 s = true
    · rw [if_pos hs]
      obtain ⟨v, hv⟩ := kvsFind_of_mem_keys kvs s (h s (List.mem_cons_self s rest))
      rw [pyIndex_of_kvsFind _ _ _ hv, ok_bind]
      exact ih hrest _ _
    · rw [if_neg hs]
      exact ih hrest errs b

/-- `respMethodBody` never raises on a well-shaped path item. -/
theorem respMethodBody_build_ok (p2 : String) (pi : BPathItem) (errs : List String)
    (m : String) (hm : m ≠ "parameters") :
    ∃ r, respMethodBody p2 (buildPathItem pi) errs m = .ok r := by
  simp only [respMethodBody, pathItem_contains, ok_bind]
  cases hfind : kvsFind (pathItemKvs pi) m with
  | none =>
    rw [if_pos (by simp)]
    exact ⟨_, rfl⟩
  | some v =>
    obtain ⟨o, rfl⟩ := pathItem_find_method pi.ops pi.parameters m hm v hfind
    rw [if_neg (by simp)]
    rw [pathItem_index pi m _ hfind, ok_bind]
    rw [oper_contains_responses, ok_bind]
    cases hrs : o.responses with
    | none =>
      rw [if_pos (by simp [hrs])]
      exact ⟨_, rfl⟩
    | some rs =>
      rw [if_neg (by simp [hrs])]
      rw [oper_index_responses o rs hrs, ok_bind, pyKeys_obj, ok_bind]
      obtain ⟨r1, h1⟩ := respStatusLoop_keys_ok
        (rs.map (fun q => (q.1, buildResp q.2))) m p2
        ((rs.map (fun q => (q.1, buildResp q.2))).map (fun q => q.1))
        (fun s hsmem => hsmem) errs false
      rw [h1, ok_bind]
      by_cases hb : r1.2 = true
      · rw [if_neg (by simp [hb])]
        exact ⟨_, rfl⟩
      · rw [if_pos (by simp only [Bool.not_eq_true] at hb; simp [hb])]
        exact ⟨_, rfl⟩

/-- `check_response_definitions` never raises on a well-shaped document. -/
theorem check_response_definitions_build_ok (d : BSpec) :
    ∃ r, check_response_definitions (buildSpec d) = .ok r := by
  have hloop : ∀ (items : List (String × BPathItem)) (errs : List String),
      ∃ r, respPathsLoop (items.map (fun q => (q.1, buildPathItem q.2))) errs = .ok r := by
    intro items
    induction items with
    | nil => exact fun _ => ⟨_, rfl⟩
    | cons a rest ih =>
      intro errs
      simp only [List.map_cons, respPathsLoop]
      have hms : ∀ (mlist : List String), (∀ m ∈ mlist, m ≠ "parameters") →
          ∀ errs2, ∃ r, respMethodsLoop a.1 (buildPathItem a.2) mlist errs2 = .ok r := by
        intro mlist
        induction mlist with
        | nil => exact fun _ _ => ⟨_, rfl⟩
        | cons m ms ihm =>
          intro hmm errs2
          simp only [respMethodsLoop]
          obtain ⟨r1, h1⟩ := respMethodBody_build_ok a.1 a.2 errs2 m
            (hmm m (List.mem_cons_self m ms))
          rw [h1, ok_bind]
          exact ihm (fun m2 h2 => hmm m2 (List.mem_cons_of_mem _ h2)) r1
      obtain ⟨r1, h1⟩ := hms httpMethods
        (by intro m hmem; fin_cases hmem <;> decide) errs
      rw [h1, ok_bind]
      exact ih r1
  rw [check_response_definitions]
  simp only [buildSpec_get_paths, ok_bind]
  cases hp : d.paths with
  | none => exact ⟨_, rfl⟩
  | some ps =>
    cases ps with
    | nil => exact ⟨_, rfl⟩
    | cons a rest =>
      rw [if_neg (by simp [truthy])]
      simp only [Option.map_some', Option.getD_some, pyItems_obj, ok_bind]
      obtain ⟨r, hr⟩ := hloop (a :: rest) []
      rw [hr]
      exact ⟨_, rfl⟩

/-- All eight checks together never raise on a well-shaped document. -/
theorem runChecks_build_ok (d : BSpec) :
    ∃ r, runChecks (buildSpec d) = .ok r := by
  rw [runChecks]
  obtain ⟨r1, h1⟩ := check_operation_ids_build_ok d
  obtain ⟨r2, h2⟩ := check_path_parameters_build_ok d
  obtain ⟨r3, h3⟩ := check_security_definitions_build_ok d
  obtain ⟨r4, h4⟩ := check_content_types_build_ok d
  obtain ⟨r5, h5⟩ := check_path_trailing_slashes_build_ok d
  obtain ⟨r7, h7⟩ := check_response_definitions_build_ok d
  rw [h1, ok_bind, h2, ok_bind, h3, ok_bind, h4, ok_bind, h5, ok_bind,
    check_servers_build, ok_bind, h7, ok_bind]
  exact ⟨_, rfl⟩

/-- C6 (amended): `validate` runs to completion without raising on every
loadable document that conforms to the documented SpecDocument shape
(top-level mapping, operation objects under the method keys, and so on);
and on a document that fails to parse it returns immediately with a
report holding exactly the single load error, running none of the eight
checks.  (On loadable documents outside that shape, `validate` can raise:
see the counterexample.) -/
theorem claim6_validate_totality :
    (∀ d : BSpec, pyOk (validate (mkValidator (.ok (buildSpec d)))) = true) ∧
    (∀ msg : String, validate (mkValidator (.error msg)) =
      .ok (⟨none, [loadErrorMsg msg], []⟩, false)) := by
  constructor
  · intro d
    rw [show mkValidator (.ok (buildSpec d)) = ⟨some (buildSpec d), [], []⟩ from rfl]
    simp only [validate]
    by_cases ht : truthy (buildSpec d) = true
    · rw [if_pos ht]
      obtain ⟨r, hr⟩ := runChecks_build_ok d
      rw [hr]
      rfl
    · rw [if_neg ht]
      rfl
  · intro msg
    rfl

/-- C6 counterexample: a structurally loadable document that is a
top-level sequence makes `validate` raise (the first check calls `.get`
on a non-mapping), so "validate never throws for a structurally loadable
document" fails on the code. -/
theorem claim6_counterexample :
    validate (mkValidator (.ok (.arr [.num 1]))) = .error .attributeError := rfl

/-- C2 counterexample: a path template with one placeholder whose only
declaration is a path-item-level parameter with `required: false` yields
no error at all — in particular no "must have required=true" error,
contradicting the claim that the required check applies at both levels. -/
theorem claim2_counterexample :
    check_path_parameters (.obj [("paths", .obj [("/items/" ++ lbr ++ "id" ++ rbr,
      .obj [("get", .obj []),
        ("parameters", .arr [.obj [("name", .str "id"), ("in", .str "path"),
          ("required", .bool false)]])])])]) = .ok [] := rfl

end ApiValidator

/-- C10 (amended): the two components do NOT derive the same version-set
key.  For every file named `name-vN.yaml` (per the regex in apiazure.py
line 49), the import pipeline's key is the full base name `name-vN`
(import-apis.py lines 177-190), while the version-set ensurer's key is the
bare `name` (apiazure.py line 54), and the two always differ — so
`name-v1.yaml` and `name-v2.yaml` share a key in the ensurer but map to
two distinct keys (and hence version sets) in the import pipeline. -/
theorem claim10_keys_differ (name ds : List Char)
    (hw : name.all ApiAzure.isWordChar = true)
    (hd : ds.all Char.isDigit = true) (hlen : ds.length ≤ 3) :
    ImportApis.derived_api_key
        (String.mk (name ++ '-' :: 'v' :: (ds ++ ['.', 'y', 'a', 'm', 'l']))) =
      String.mk (name ++ '-' :: 'v' :: ds) ∧
    ApiAzure.vset_key
        (String.mk (name ++ '-' :: 'v' :: (ds ++ ['.', 'y', 'a', 'm', 'l']))) =
      String.mk name ∧
    String.mk (name ++ '-' :: 'v' :: ds) ≠ String.mk name := by
  rw [List.all_eq_true] at hw hd
  refine ⟨?_, ?_, ?_⟩
  · rw [ImportApis.derived_api_key]
    rw [show (String.mk (name ++ '-' :: 'v' :: (ds ++ ['.', 'y', 'a', 'm', 'l']))).data =
      name ++ '-' :: 'v' :: (ds ++ ['.', 'y', 'a', 'm', 'l']) from rfl]
    rw [basenameCs_of_no_slash _ ?_]
    · rw [splitextRootCs_vname name ds]
    · intro c hc
      rcases List.mem_append.mp hc with h | h
      · exact ((word_char_facts c (hw c h)).2).2
      · rcases h with _ | ⟨_, h⟩
        · decide
        · rcases h with _ | ⟨_, h⟩
          · decide
          · rcases List.mem_append.mp h with h | h
            · exact (digit_char_facts c (hd c h)).2
            · fin_cases h <;> decide
  · rw [ApiAzure.vset_key]
    rw [show (String.mk (name ++ '-' :: 'v' :: (ds ++ ['.', 'y', 'a', 'm', 'l']))).data =
      name ++ '-' :: 'v' :: (ds ++ ['.', 'y', 'a', 'm', 'l']) from rfl]
    rw [takeWhile_append_stop _ name '-' _ ?_ (by decide)]
    rw [List.all_eq_true]
    intro c hc
    have hf := word_char_facts c (hw c hc)
    simp [hf.1, hf.2.1]
  · intro h
    have hdata := congrArg String.data h
    simp only [show (String.mk (name ++ '-' :: 'v' :: ds)).data =
      name ++ '-' :: 'v' :: ds from rfl,
      show (String.mk name).data = name from rfl] at hdata
    have := congrArg List.length hdata
    simp only [List.length_append, List.length_cons] at this
    omega

/-- Witness for the key-derivation divergence at the concrete file
`orders-v1.yaml`. -/
theorem claim10_keys_differ_witness :
    ImportApis.derived_api_key
        (String.mk ("orders".data ++ '-' :: 'v' :: ("1".data ++ ['.', 'y', 'a', 'm', 'l']))) =
      String.mk ("orders".data ++ '-' :: 'v' :: "1".data) ∧
    ApiAzure.vset_key
        (String.mk ("orders".data ++ '-' :: 'v' :: ("1".data ++ ['.', 'y', 'a', 'm', 'l']))) =
      String.mk "orders".data ∧
    String.mk ("orders".data ++ '-' :: 'v' :: "1".data) ≠ String.mk "orders".data :=
claim10_keys_differ "orders".data "1".data (by decide) (by decide) (by decide)

/-- C10 counterexample: on the file `orders-v1.yaml` the import pipeline
derives the version-set key `orders-v1` while the ensurer derives
`orders`, so the two components do not derive the same key. -/
theorem claim10_counterexample :
    ImportApis.derived_api_key "orders-v1.yaml" = "orders-v1" ∧
    ApiAzure.vset_key "orders-v1.yaml" = "orders" ∧
    ImportApis.derived_api_key "orders-v1.yaml" ≠ ApiAzure.vset_key "orders-v1.yaml" := by
  refine ⟨rfl, rfl, ?_⟩
  rw [show ImportApis.derived_api_key "orders-v1.yaml" = "orders-v1" from rfl,
    show ApiAzure.vset_key "orders-v1.yaml" = "orders" from rfl]
  decide

namespace ImportApis

end ImportApis

end AzureUpload
